import Mathlib

/-!
# Verification of `internal/screentest`

A shallow embedding of `src/internal/screentest/screentest.go`: the script
compiler `readTests` with its helpers `splitOneField` and `splitDimensions`,
the file-name sanitizer `sanitized`, and the diff engine `runDiff` with
`writePNG`.

Go strings are represented by Lean strings (sequences of Unicode code
points), so the development covers inputs that are valid UTF-8.  Go `int` is
the 64-bit `int`; it is represented by `Int`, the range being enforced where
the code enforces it (`strconv.Atoi`).
-/

namespace Screentest

/-! ## Standard-library functions used by the package -/

/-- The function `unicode.IsSpace`: the code points with the White_Space property. -/
def isSpace (c : Char) : Bool :=
  let n := c.toNat
  (9 ≤ n && n ≤ 13) || n == 0x20 || n == 0x85 || n == 0xA0 || n == 0x1680 ||
    (0x2000 ≤ n && n ≤ 0x200A) || n == 0x2028 || n == 0x2029 || n == 0x202F ||
    n == 0x205F || n == 0x3000

/-- Drop the longest suffix of `l` whose elements all satisfy `p`. -/
def dropWhileEnd (p : Char → Bool) (l : List Char) : List Char :=
  (l.reverse.dropWhile p).reverse

/-- The function `strings.TrimSpace`. -/
def trimSpace (s : String) : String :=
  String.mk (dropWhileEnd isSpace (s.data.dropWhile isSpace))

/-- The function `strings.HasPrefix`. -/
def hasPrefix (s pre : String) : Bool :=
  pre.data.isPrefixOf s.data

/-- The function `strings.TrimRight`: drop the trailing code points that occur in `cutset`. -/
def trimRight (s cutset : String) : String :=
  String.mk (dropWhileEnd (fun c => cutset.data.contains c) s.data)

/-- The function `strings.TrimLeft`: drop the leading code points that occur in `cutset`. -/
def trimLeft (s cutset : String) : String :=
  String.mk (s.data.dropWhile (fun c => cutset.data.contains c))

/-- Position of the first element of `l` that occurs in `cutset`, if any. -/
def indexAnyAux (cutset : List Char) : List Char → Option Nat
  | [] => none
  | c :: cs =>
    if cutset.contains c then some 0
    else match indexAnyAux cutset cs with
      | some i => some (i + 1)
      | none => none

/-- The function `strings.IndexAny`; `none` stands for the result `-1`.  The
position counts code points; the slices taken at it in `splitOneField` are
the same as the byte slices of the source, the cut set being ASCII. -/
def indexAny (s cutset : String) : Option Nat :=
  indexAnyAux cutset.data s.data

/-- Split `l` at every occurrence of `sep`; the pieces number one more than the occurrences. -/
def splitAux (sep : Char) : List Char → List Char → List String
  | acc, [] => [String.mk acc.reverse]
  | acc, c :: cs =>
    if c = sep then String.mk acc.reverse :: splitAux sep [] cs
    else splitAux sep (c :: acc) cs

/-- The function `strings.Split` for a separator of one code point. -/
def split (s : String) (sep : Char) : List String :=
  splitAux sep [] s.data

/-- The function `unicode.ToUpper` on ASCII: `a`–`z` go to `A`–`Z`. -/
def asciiToUpper (c : Char) : Char :=
  if 97 ≤ c.toNat ∧ c.toNat ≤ 122 then Char.ofNat (c.toNat - 32) else c

/-- The two kinds of `*strconv.NumError`. -/
inductive NumError
  /-- The error `strconv.ErrSyntax`. -/
  | invalid
  /-- The error `strconv.ErrRange`. -/
  | outOfRange
  deriving DecidableEq, Repr

/-- The digit loop of `strconv.ParseUint(s, 10, 64)`: a non-digit is a syntax
error, a value above `2^64 - 1` a range error, reported where it arises. -/
def parseUintAux : List Char → Nat → Except NumError Nat
  | [], n => .ok n
  | c :: cs, n =>
    if 48 ≤ c.toNat ∧ c.toNat ≤ 57 then
      let n1 := n * 10 + (c.toNat - 48)
      if n1 > 2 ^ 64 - 1 then .error .outOfRange else parseUintAux cs n1
    else .error .invalid

/-- The function `strconv.ParseUint(s, 10, 64)`. -/
def parseUint (s : List Char) : Except NumError Nat :=
  match s with
  | [] => .error .invalid
  | _ => parseUintAux s 0

/-- The function `strconv.Atoi` for the 64-bit `int`: an optional sign, then
decimal digits only, the value within `[-2^63, 2^63 - 1]`. -/
def atoi (s : String) : Except NumError Int :=
  match s.data with
  | [] => .error .invalid
  | c :: cs =>
    let neg := c = '-'
    let digits := if c = '-' ∨ c = '+' then cs else c :: cs
    match parseUint digits with
    | .error e => .error e
    | .ok un =>
      if ¬ neg ∧ un ≥ 2 ^ 63 then .error .outOfRange
      else if neg ∧ un > 2 ^ 63 then .error .outOfRange
      else .ok (if neg then - (un : Int) else (un : Int))

/-- The verb `%d` of `fmt.Sprintf` at an `int`. -/
def formatInt (n : Int) : String :=
  if n < 0 then "-" ++ Nat.repr n.natAbs else Nat.repr n.toNat

/-- What `net/url` gives back for a string it parses: of a `*url.URL` the
package reads the field `Host` and the rendering by `String()`. -/
structure URL where
  Host : String
  text : String
  deriving DecidableEq, Repr

/-- Library functions taken as parameters: `url.Parse` (with its error message
when it fails) and `unicode.ToUpper` above U+007F. -/
structure Lib where
  urlParse : String → Except String URL
  toUpperNonASCII : Char → Char

/-- The function `unicode.ToUpper`. -/
def toUpperRune (lib : Lib) (c : Char) : Char :=
  if c.toNat < 128 then asciiToUpper c else lib.toUpperNonASCII c

/-- The function `strings.ToUpper`. -/
def toUpper (lib : Lib) (s : String) : String :=
  String.mk (s.data.map (toUpperRune lib))

/-- The elements `filepath.Clean` keeps of a path, read left to right, `acc`
holding the elements kept so far, the last one first: an empty element and
`.` are dropped, `..` removes the element before it, is dropped at the root,
and is kept where a relative path has nothing left to remove. -/
def cleanAux (rooted : Bool) : List String → List String → List String
  | acc, [] => acc.reverse
  | acc, e :: rest =>
    if e = "" ∨ e = "." then cleanAux rooted acc rest
    else if e = ".." then
      match acc with
      | top :: below =>
        if top = ".." then cleanAux rooted (".." :: acc) rest
        else cleanAux rooted below rest
      | [] => if rooted then cleanAux rooted [] rest else cleanAux rooted [".."] rest
    else cleanAux rooted (e :: acc) rest

/-- The function `strings.Join` with the separator `/`. -/
def joinSlash : List String → String
  | [] => ""
  | [e] => e
  | e :: rest => e ++ "/" ++ joinSlash rest

/-- The function `filepath.Clean` where the path separator is `/`. -/
def filepathClean (path : String) : String :=
  if path = "" then "."
  else
    let rooted := hasPrefix path "/"
    let body := joinSlash (cleanAux rooted [] (split path '/'))
    if rooted then "/" ++ body
    else if body = "" then "."
    else body

/-- The function `filepath.Join` at two elements, where the path separator is
`/`: the elements from the first non-empty one on, joined and cleaned. -/
def filepathJoin (dir file : String) : String :=
  if dir ≠ "" then filepathClean (dir ++ "/" ++ file)
  else if file ≠ "" then filepathClean file
  else ""

/-! ## Data model -/

/-- The type `screenshotType`. -/
inductive screenshotType
  | fullScreenshot
  | viewportScreenshot
  | elementScreenshot
  deriving DecidableEq, Repr

/-- An element of `chromedp.Tasks` as the script compiler builds them:
`chromedp.Click(sel)` or `chromedp.WaitReady(sel)`. -/
inductive Task
  | Click (sel : String)
  | WaitReady (sel : String)
  deriving DecidableEq, Repr

/-- The struct `testcase`. -/
structure testcase where
  name : String
  pathame : String
  tasks : List Task
  originA : String
  originB : String
  viewportWidth : Int
  viewportHeight : Int
  screenshotType : screenshotType
  screenshotElement : String
  deriving DecidableEq, Repr

/-- The error of `splitDimensions`. -/
inductive DimError
  /-- The error `syntax error: windowsize %s`. -/
  | fields (text : String)
  /-- The error `strconv.Atoi(%q): %w`. -/
  | atoi (field : String) (err : NumError)
  deriving DecidableEq, Repr

/-- The errors `readTests` returns, one constructor per `fmt.Errorf` call,
holding the arguments of its format string. -/
inductive CompileError
  /-- The error of `os.Open`, returned as it is. -/
  | openFile (err : String)
  /-- The error `url.Parse(%q): %w`. -/
  | urlParse (raw : String) (err : String)
  /-- The error `splitDimensions(%q): %w`. -/
  | splitDimensions (args : String) (err : DimError)
  /-- The error `duplicate test name %q on line %d`. -/
  | duplicateTestName (testName : String) (lineNo : Nat)
  /-- The error `duplicate test with pathname %q on line %d`. -/
  | duplicatePathname (pathname : String) (lineNo : Nat)
  /-- The error `missing compare for capture on line %d`. -/
  | missingCompare (lineNo : Nat)
  /-- The error `missing pathname for capture on line %d`. -/
  | missingPathname (lineNo : Nat)
  /-- The error `invalid syntax on line %d: %q`. -/
  | invalidLine (lineNo : Nat) (line : String)
  /-- The error `scan.Err(): %v`. -/
  | scanErr (err : String)
  deriving DecidableEq, Repr

/-- The line number an error message carries: the `%d` argument of its format
string, `none` for a format string without one. -/
def CompileError.lineNo? : CompileError → Option Nat
  | .openFile _ => none
  | .urlParse _ _ => none
  | .splitDimensions _ _ => none
  | .duplicateTestName _ n => some n
  | .duplicatePathname _ n => some n
  | .missingCompare n => some n
  | .missingPathname n => some n
  | .invalidLine n _ => some n
  | .scanErr _ => none

/-- How a call ends: with a value, with a returned error, or in a run-time
panic (an index out of range). -/
inductive Outcome (α : Type)
  | ok (a : α)
  | error (e : CompileError)
  | panic
  deriving DecidableEq, Repr

/-- The local variables of `readTests` that live across lines. -/
structure ParseState where
  tests : List testcase
  testName : String
  pathname : String
  tasks : List Task
  originA : String
  originB : String
  width : Int
  height : Int
  lineNo : Nat
  deriving DecidableEq, Repr

/-- The variables as declared: empty strings, nil slices, zeros. -/
def ParseState.init : ParseState :=
  { tests := [], testName := "", pathname := "", tasks := [],
    originA := "", originB := "", width := 0, height := 0, lineNo := 0 }

/-! ## The script compiler -/

/-- The function `splitOneField`. -/
def splitOneField (text : String) : String × String :=
  match indexAny text " \t" with
  | none => (text, "")
  | some i => (String.mk (text.data.take i), trimLeft (String.mk (text.data.drop i)) " \t")

/-- The function `splitDimensions`. -/
def splitDimensions (text : String) : Except DimError (Int × Int) :=
  match split text 'x' with
  | [w, h] =>
    match atoi w with
    | .error e => .error (.atoi w e)
    | .ok width =>
      match atoi h with
      | .error e => .error (.atoi h e)
      | .ok height => .ok (width, height)
  | _ => .error (.fields text)

/-- The body of `case "CAPTURE"` after the two guards: the test case appended
to `tests`, with the writes made to it through the pointer `test`
afterwards. -/
def captureTest (lib : Lib) (st : ParseState) (args : String) : Except CompileError testcase :=
  let test : testcase :=
    { name := st.testName, pathame := st.pathname, tasks := st.tasks,
      originA := st.originA, originB := st.originB,
      screenshotType := .viewportScreenshot,
      viewportWidth := st.width, viewportHeight := st.height,
      screenshotElement := "" }
  let (field, args) := splitOneField args
  let field := toUpper lib field
  if field = "FULLSCREEN" ∨ field = "VIEWPORT" then
    let test := if field = "FULLSCREEN" then { test with screenshotType := .fullScreenshot } else test
    if args ≠ "" then
      match splitDimensions args with
      | .error e => .error (.splitDimensions args e)
      | .ok (w, h) =>
        .ok { test with
              name := st.testName ++ (" " ++ formatInt w ++ "x" ++ formatInt h),
              viewportWidth := w, viewportHeight := h }
    else .ok test
  else if field = "ELEMENT" then
    .ok { test with
          name := st.testName ++ (" " ++ args),
          screenshotType := .elementScreenshot,
          screenshotElement := args }
  else .ok test

/-- The `switch field` of `readTests` at one line; `st.lineNo` is already the
number of this line. -/
def exec (lib : Lib) (st : ParseState) (line field args : String) : Outcome ParseState :=
  if field = "" then
    .ok { st with testName := "", pathname := "", tasks := [] }
  else if field = "COMPARE" then
    match split args ' ' with
    | originA :: originB :: _ =>
      match lib.urlParse originA with
      | .error e => .error (.urlParse originA e)
      | .ok _ =>
        match lib.urlParse originB with
        | .error e => .error (.urlParse originB e)
        | .ok _ => .ok { st with originA := originA, originB := originB }
    | _ => .panic
  else if field = "WINDOWSIZE" then
    match splitDimensions args with
    | .error e => .error (.splitDimensions args e)
    | .ok (width, height) => .ok { st with width := width, height := height }
  else if field = "TEST" then
    let testName := args
    if st.tests.any (fun t => t.name = testName) then
      .error (.duplicateTestName testName st.lineNo)
    else .ok { st with testName := testName }
  else if field = "PATHNAME" then
    match lib.urlParse (st.originA ++ args) with
    | .error e => .error (.urlParse (st.originA ++ args) e)
    | .ok _ =>
      match lib.urlParse (st.originB ++ args) with
      | .error e => .error (.urlParse (st.originB ++ args) e)
      | .ok _ =>
        let pathname := args
        let testName := if st.testName = "" then pathname else st.testName
        if st.tests.any (fun t => t.name = testName) then
          .error (.duplicatePathname pathname st.lineNo)
        else .ok { st with pathname := pathname, testName := testName }
  else if field = "CLICK" then
    .ok { st with tasks := st.tasks ++ [Task.Click args] }
  else if field = "WAIT" then
    .ok { st with tasks := st.tasks ++ [Task.WaitReady args] }
  else if field = "CAPTURE" then
    if st.originA = "" ∨ st.originB = "" then .error (.missingCompare st.lineNo)
    else if st.pathname = "" then .error (.missingPathname st.lineNo)
    else
      match captureTest lib st args with
      | .error e => .error e
      | .ok test => .ok { st with tests := st.tests ++ [test] }
  else .error (.invalidLine st.lineNo line)

/-- One iteration of the `for scan.Scan()` loop of `readTests`, at the line
`text` the scanner delivers. -/
def step (lib : Lib) (st : ParseState) (text : String) : Outcome ParseState :=
  let st := { st with lineNo := st.lineNo + 1 }
  let line := trimSpace text
  if hasPrefix line "#" then .ok st
  else
    let line := trimRight line " \t"
    let (field, args) := splitOneField line
    let field := toUpper lib field
    exec lib st line field args

/-- The `for scan.Scan()` loop of `readTests` over the lines the scanner
delivers; a returned error or a panic ends it. -/
def run (lib : Lib) : ParseState → List String → Outcome ParseState
  | st, [] => .ok st
  | st, text :: rest =>
    match step lib st text with
    | .ok st1 => run lib st1 rest
    | .error e => .error e
    | .panic => .panic

/-- What `readTests` meets at the file: `os.Open` fails with `openErr`, or the
`bufio.Scanner` delivers `lines` (split at newlines, without the line ends)
and then stops, at the end of the file (`scanErr = none`) or on an error such
as a line too long for its buffer. -/
structure ScriptFile where
  openErr : Option String
  lines : List String
  scanErr : Option String
  deriving DecidableEq, Repr

/-- A file that opens and is read to its end. -/
def ScriptFile.ofLines (lines : List String) : ScriptFile :=
  { openErr := none, lines := lines, scanErr := none }

/-- The function `readTests`. -/
def readTests (lib : Lib) (file : ScriptFile) : Outcome (List testcase) :=
  match file.openErr with
  | some err => .error (.openFile err)
  | none =>
    match run lib ParseState.init file.lines with
    | .error e => .error e
    | .panic => .panic
    | .ok st =>
      match file.scanErr with
      | some err => .error (.scanErr err)
      | none => .ok st.tests

/-- The authority of a string `scheme://authority/path`. -/
def authorityOf (s : String) : String :=
  match split s '/' with
  | _ :: "" :: host :: _ => host
  | _ => ""

/-- A library for evaluating concrete scripts: a `url.Parse` that accepts
every string, with the authority as `Host` and the string itself as its
rendering, and no case mapping above U+007F.  On the URLs of the concrete
scripts below, of the form `scheme://host[:port][/path]`, this is the result
of `net/url`. -/
def Lib.lenient : Lib :=
  { urlParse := fun s => .ok { Host := authorityOf s, text := s },
    toUpperNonASCII := fun c => c }

/-! ## File names -/

/-- The value of the string literal that `regexp.MustCompile` is given for
`sanitize`: the two-character escape of the Go literal is one backslash
here. -/
def sanitizePattern : String := "[.*<>?`'|/\\: ]"

/-- The members of a character class of `regexp/syntax` without ranges, read
from its text between the brackets: a backslash escapes the character after
it, and an escaped punctuation character stands for itself. -/
def classChars : List Char → List Char
  | [] => []
  | [c] => [c]
  | c :: d :: rest => if c = '\\' then d :: classChars rest else c :: classChars (d :: rest)

/-- The characters the regular expression `sanitize` matches: the members of
its character class. -/
def sanitize : List Char :=
  classChars ((sanitizePattern.data.drop 1).dropLast)

/-- The function `sanitized`: `sanitize.ReplaceAllString(text, "-")`, which
replaces every match of the one-character class by `-`. -/
def sanitized (text : String) : String :=
  String.mk (text.data.map fun c => if sanitize.contains c then '-' else c)

/-! ## The diff engine -/

/-- A browser action of the task list `captureScreenshot` runs. -/
inductive Action
  | EmulateViewport (width height : Int)
  | Navigate (url : String)
  | waitForEvent (eventName : String)
  | Tasks (tasks : List Task)
  | FullScreenshot (quality : Nat)
  | CaptureScreenshot
  | Screenshot (sel : String)
  deriving DecidableEq, Repr

/-- The collaborators of `runDiff`, taken as parameters: the browser
(`chromedp.Run` at the `n`-th capture of a call, with the screenshot bytes it
leaves in the buffer), `image.Decode`, `imgdiff.Diff` with the options of the
source, and the three steps of writing a file, each with the error it may
give. -/
structure Engine (Image : Type) where
  chromedpRun : Nat → List Action → Except String (List UInt8)
  imageDecode : List UInt8 → Except String Image
  imgdiff : Image → Image → Image
  osCreate : String → Option String
  pngEncode : Image → Option String
  fileClose : String → Option String

/-- What a file holds: the PNG encoding of an image; what an encoding that
failed left behind; or what several goroutines left that created and wrote
the file at the same time, which the code does not determine (it may be the
image of either, or of neither). -/
inductive FileData (Image : Type)
  | png (img : Image)
  | incomplete
  | contended
  deriving DecidableEq, Repr

/-- The file system: the files present, by path, each path at most once. -/
abbrev FS (Image : Type) := List (String × FileData Image)

/-- The paths of the files present. -/
def FS.paths {Image : Type} (fs : FS Image) : List String :=
  fs.map Prod.fst

/-- The contents of the file at `path`, if there is one. -/
def FS.read {Image : Type} : FS Image → String → Option (FileData Image)
  | [], _ => none
  | (q, d) :: rest, path => if q = path then some d else FS.read rest path

/-- The files present without the one at `path`. -/
def FS.remove {Image : Type} : FS Image → String → FS Image
  | [], _ => []
  | (q, d) :: rest, path =>
    if q = path then FS.remove rest path else (q, d) :: FS.remove rest path

/-- Create the file at `path` or replace the one there, with contents `d`. -/
def FS.write {Image : Type} (fs : FS Image) (path : String) (d : FileData Image) : FS Image :=
  (path, d) :: fs.remove path

/-- The errors of `writePNG`. -/
inductive WriteError
  /-- The error `os.Create(%q): %w`. -/
  | create (path : String) (err : String)
  /-- The error `png.Encode(...): %w`. -/
  | encode (err : String)
  /-- The error `f.Close(): %w`. -/
  | close (err : String)
  deriving DecidableEq, Repr

/-- The errors of `runDiff`. -/
inductive RunError
  /-- The error `url.Parse(%q): %w`. -/
  | urlParse (raw : String) (err : String)
  /-- The error `fullScreenshot(ctx, %q, %q): %w` around `chromedp.Run(...): %w`. -/
  | capture (url : String) (err : String)
  /-- The error `image.Decode(...): %w`. -/
  | decode (err : String)
  /-- The error `writePNG(...): %w`. -/
  | writePNG (err : WriteError)
  /-- The error `%s != %s` at the two URLs. -/
  | mismatch (urlA urlB : String)
  deriving DecidableEq, Repr

/-- The function `captureScreenshot`, as the `n`-th capture of a call of
`runDiff`: the task list it builds, run by the browser. -/
def captureScreenshot {Image : Type} (eng : Engine Image) (n : Nat) (u : URL) (test : testcase) :
    Except String (List UInt8) :=
  let tasks : List Action :=
    [ Action.EmulateViewport test.viewportWidth test.viewportHeight,
      Action.Navigate u.text,
      Action.waitForEvent "networkIdle",
      Action.Tasks test.tasks ]
  let tasks :=
    match test.screenshotType with
    | .fullScreenshot => tasks ++ [Action.FullScreenshot 100]
    | .viewportScreenshot => tasks ++ [Action.CaptureScreenshot]
    | .elementScreenshot => tasks ++ [Action.Screenshot test.screenshotElement]
  eng.chromedpRun n tasks

/-- The function `writePNG`, with the file system as explicit state. -/
def writePNG {Image : Type} (eng : Engine Image) (fs : FS Image) (i : Image) (filename : String) :
    FS Image × Option WriteError :=
  match eng.osCreate (filename ++ ".png") with
  | some err => (fs, some (.create (filename ++ ".png") err))
  | none =>
    match eng.pngEncode i with
    | some err => (fs.write (filename ++ ".png") .incomplete, some (.encode err))
    | none =>
      match eng.fileClose (filename ++ ".png") with
      | some err => (fs.write (filename ++ ".png") (.png i), some (.close err))
      | none => (fs.write (filename ++ ".png") (.png i), none)

/-- The order in which the three goroutines of the `errgroup` of `runDiff`
get to run: `d` writes the diff image, `A` and `B` the two screenshots. -/
inductive Schedule
  | dAB | dBA | AdB | ABd | BdA | BAd
  deriving DecidableEq, Repr

/-- The three jobs in the order of a schedule. -/
def Schedule.order {α : Type} : Schedule → α → α → α → List α
  | .dAB, d, a, b => [d, a, b]
  | .dBA, d, a, b => [d, b, a]
  | .AdB, d, a, b => [a, d, b]
  | .ABd, d, a, b => [a, b, d]
  | .BdA, d, a, b => [b, d, a]
  | .BAd, d, a, b => [b, a, d]

/-- More than one job of the group `jobs` writes the file `filename`. -/
def shared {Image : Type} (jobs : List (Image × String)) (filename : String) : Bool :=
  decide (2 ≤ (jobs.filter fun j => j.2 = filename).length)

/-- One goroutine of the `errgroup` of `runDiff`, `jobs` being all of them:
`writePNG`, except that a file that another goroutine of the group creates
too is left `contended`. -/
def runJob {Image : Type} (eng : Engine Image) (jobs : List (Image × String)) (fs : FS Image)
    (job : Image × String) : FS Image × Option WriteError :=
  if shared jobs job.2 then
    match eng.osCreate (job.2 ++ ".png") with
    | some _ => writePNG eng fs job.1 job.2
    | none => (fs.write (job.2 ++ ".png") .contended, (writePNG eng fs job.1 job.2).2)
  else writePNG eng fs job.1 job.2

/-- The `errgroup` of `runDiff`, whose goroutines `jobs` run concurrently.
Goroutines that write different files do not interfere, so their writes are
taken one after another, in the order the list gives; a file that more than
one of them creates is left `contended`.  Every goroutine runs, and `Wait`
gives the first error that arose. -/
def runGroup {Image : Type} (eng : Engine Image) (jobs : List (Image × String)) :
    FS Image → List (Image × String) → FS Image × Option WriteError
  | fs, [] => (fs, none)
  | fs, job :: rest =>
    match runJob eng jobs fs job with
    | (fs1, some err) => ((runGroup eng jobs fs1 rest).1, some err)
    | (fs1, none) => runGroup eng jobs fs1 rest

/-- The function `runDiff`, with the file system as explicit state and the
order in which its three goroutines get to run as a parameter; what it prints
is left out. -/
def runDiff {Image : Type} (lib : Lib) (eng : Engine Image) (sched : Schedule) (fs : FS Image)
    (test : testcase) (out : String) : FS Image × Option RunError :=
  match lib.urlParse (test.originA ++ test.pathame) with
  | .error err => (fs, some (.urlParse (test.originA ++ test.pathame) err))
  | .ok urlA =>
    match lib.urlParse (test.originB ++ test.pathame) with
    | .error err => (fs, some (.urlParse (test.originB ++ test.pathame) err))
    | .ok urlB =>
      match captureScreenshot eng 0 urlA test with
      | .error err => (fs, some (.capture urlA.text err))
      | .ok screenA =>
        match captureScreenshot eng 1 urlB test with
        | .error err => (fs, some (.capture urlB.text err))
        | .ok screenB =>
          if screenA = screenB then (fs, none)
          else
            match eng.imageDecode screenA with
            | .error err => (fs, some (.decode err))
            | .ok imgA =>
              match eng.imageDecode screenB with
              | .error err => (fs, some (.decode err))
              | .ok imgB =>
                let outfile := filepathJoin out (sanitized test.name)
                let jobs := sched.order
                  (eng.imgdiff imgA imgB, outfile ++ ".diff")
                  (imgA, outfile ++ "." ++ sanitized urlA.Host)
                  (imgB, outfile ++ "." ++ sanitized urlB.Host)
                match runGroup eng jobs fs jobs with
                | (fs1, some err) => (fs1, some (.writePNG err))
                | (fs1, none) => (fs1, some (.mismatch urlA.text urlB.text))

/-- An engine for evaluating `runDiff`: the browser gives the byte `n` at the
`n`-th capture, an image is the list of its bytes, the diff of two images is
their concatenation, and every write succeeds. -/
def Engine.sample : Engine (List UInt8) :=
  { chromedpRun := fun n _ => .ok [UInt8.ofNat n],
    imageDecode := fun b => .ok b,
    imgdiff := fun a b => a ++ b,
    osCreate := fun _ => none,
    pngEncode := fun _ => none,
    fileClose := fun _ => none }

/-- What a goroutine of the group `jobs` leaves in its file when every step
of writing succeeds: its image, unless another goroutine of the group writes
the same file. -/
def jobData {Image : Type} (jobs : List (Image × String)) (job : Image × String) :
    FileData Image :=
  if shared jobs job.2 then .contended else .png job.1

/-- The path prefix of the artifacts of a test case: the `outfile` of `runDiff`. -/
def outfile (out : String) (test : testcase) : String :=
  filepathJoin out (sanitized test.name)

/-- The path of the diff image of a test case. -/
def diffPath (out : String) (test : testcase) : String :=
  outfile out test ++ ".diff" ++ ".png"

/-- The path of the screenshot of a test case taken at the URL `u`. -/
def shotPath (out : String) (test : testcase) (u : URL) : String :=
  outfile out test ++ "." ++ sanitized u.Host ++ ".png"

/-! ## Reading a script line by line -/

/-- The directive and the remainder `readTests` reads on a line: the first
field of the trimmed line in upper case and the text after it; `none` for a
comment line. -/
def directiveOf (lib : Lib) (text : String) : Option (String × String) :=
  let line := trimSpace text
  if hasPrefix line "#" then none
  else
    let (field, args) := splitOneField (trimRight line " \t")
    some (toUpper lib field, args)

/-- The line `text` carries the directive `name` (given in upper case). -/
def isDirective (lib : Lib) (name : String) (text : String) : Bool :=
  (directiveOf lib text).map Prod.fst == some name

/-- The origins a line sets: the first two pieces of the remainder of a
`compare` line split at single spaces. -/
def compareArgs (field args : String) : Option (String × String) :=
  if field = "COMPARE" then
    match split args ' ' with
    | originA :: originB :: _ => some (originA, originB)
    | _ => none
  else none

/-- The window size a line sets: the dimensions of a `windowsize` line. -/
def windowsizeArgs (field args : String) : Option (Int × Int) :=
  if field = "WINDOWSIZE" then
    match splitDimensions args with
    | .ok d => some d
    | .error _ => none
  else none

/-- The origins of the `compare` line `text`. -/
def compareOf (lib : Lib) (text : String) : Option (String × String) :=
  (directiveOf lib text).bind fun d => compareArgs d.1 d.2

/-- The dimensions of the `windowsize` line `text`. -/
def windowsizeOf (lib : Lib) (text : String) : Option (Int × Int) :=
  (directiveOf lib text).bind fun d => windowsizeArgs d.1 d.2

/-- The origins of the most recent `compare` line of `lines`, empty when
there is none. -/
def lastCompare (lib : Lib) (lines : List String) : String × String :=
  ((lines.filterMap (compareOf lib)).getLast?).getD ("", "")

/-- The dimensions of the last `windowsize` line of `lines`, `0x0` when there
is none. -/
def lastWindowsize (lib : Lib) (lines : List String) : Int × Int :=
  ((lines.filterMap (windowsizeOf lib)).getLast?).getD (0, 0)

/-- The variables of `readTests` scoped to one test block. -/
structure TestScope where
  testName : String
  pathname : String
  tasks : List Task
  deriving DecidableEq, Repr

/-- The test-scoped variables of a parse state. -/
def ParseState.scope (st : ParseState) : TestScope :=
  { testName := st.testName, pathname := st.pathname, tasks := st.tasks }

/-- The test-scoped variables at the start of a test block. -/
def TestScope.empty : TestScope :=
  { testName := "", pathname := "", tasks := [] }

/-- What a line with directive `field` and remainder `args` does to the
test-scoped variables. -/
def TestScope.next (b : TestScope) (field args : String) : TestScope :=
  if field = "" then TestScope.empty
  else if field = "TEST" then { b with testName := args }
  else if field = "PATHNAME" then
    { b with pathname := args, testName := if b.testName = "" then args else b.testName }
  else if field = "CLICK" then { b with tasks := b.tasks ++ [Task.Click args] }
  else if field = "WAIT" then { b with tasks := b.tasks ++ [Task.WaitReady args] }
  else b

/-- What the line `text` does to the test-scoped variables. -/
def TestScope.line (lib : Lib) (b : TestScope) (text : String) : TestScope :=
  match directiveOf lib text with
  | none => b
  | some (field, args) => b.next field args

/-- The test-scoped variables after the lines `lines`, read from the start of
a test block. -/
def TestScope.after (lib : Lib) (lines : List String) : TestScope :=
  lines.foldl (TestScope.line lib) TestScope.empty

/-- The sub-directive (in upper case) and its argument on a `capture` line. -/
def captureForm (lib : Lib) (text : String) : Option (String × String) :=
  match directiveOf lib text with
  | some (field, args) =>
    if field = "CAPTURE" then
      some (toUpper lib (splitOneField args).1, (splitOneField args).2)
    else none
  | none => none

/-- The number of `capture` lines among `lines`. -/
def captureCount (lib : Lib) (lines : List String) : Nat :=
  (lines.filter (isDirective lib "CAPTURE")).length

/-- The size argument of a `capture fullscreen` or `capture viewport` line,
`none` when the line gives no size. -/
def captureSize (lib : Lib) (text : String) : Option (Int × Int) :=
  match captureForm lib text with
  | some (sub, arg) =>
    if (sub = "FULLSCREEN" ∨ sub = "VIEWPORT") ∧ arg ≠ "" then (splitDimensions arg).toOption
    else none
  | none => none

/-- What a `capture` line appends to the test name: ` WxH` for a size, ` SELECTOR`
for `capture element`, nothing otherwise. -/
def captureSuffix (lib : Lib) (text : String) : String :=
  match captureForm lib text with
  | some (sub, arg) =>
    if sub = "FULLSCREEN" ∨ sub = "VIEWPORT" then
      match captureSize lib text with
      | some (w, h) => " " ++ formatInt w ++ "x" ++ formatInt h
      | none => ""
    else if sub = "ELEMENT" then " " ++ arg
    else ""
  | none => ""

/-- The kind of screenshot a `capture` line asks for. -/
def captureKind (lib : Lib) (text : String) : screenshotType :=
  match captureForm lib text with
  | some (sub, _) =>
    if sub = "FULLSCREEN" then .fullScreenshot
    else if sub = "VIEWPORT" then .viewportScreenshot
    else if sub = "ELEMENT" then .elementScreenshot
    else .viewportScreenshot
  | none => .viewportScreenshot

/-- The chained-capture script of the package documentation. -/
def docScript : List String :=
  [ "windowsize 1536x960",
    "compare https://go.dev http://localhost:6060",
    "",
    "test homepage",
    "pathname /",
    "capture viewport",
    "capture viewport 540x1080",
    "capture viewport 400x1000",
    "",
    "test about page",
    "pathname /about",
    "capture viewport",
    "capture viewport 540x1080",
    "capture viewport 400x1000" ]

/-- The test case a line `capture viewport` emits with no size of its own. -/
def viewportCase (name pathname : String) (w h : Int) : testcase :=
  { name := name, pathame := pathname, tasks := [],
    originA := "https://go.dev", originB := "http://localhost:6060",
    viewportWidth := w, viewportHeight := h,
    screenshotType := .viewportScreenshot, screenshotElement := "" }

/-- The test cases the script of the package documentation compiles to. -/
def docCases : List testcase :=
  [ viewportCase "homepage" "/" 1536 960,
    viewportCase "homepage 540x1080" "/" 540 1080,
    viewportCase "homepage 400x1000" "/" 400 1000,
    viewportCase "about page" "/about" 1536 960,
    viewportCase "about page 540x1080" "/about" 540 1080,
    viewportCase "about page 400x1000" "/about" 400 1000 ]

/-- The test case of the page `/` of the package documentation, named `homepage`. -/
def homepage : testcase := viewportCase "homepage" "/" 1536 960

/-- The test case of the page `/` compared between `http://go.dev` and
`https://go.dev`, two origins with one host. -/
def sameHost : testcase :=
  { homepage with originA := "http://go.dev", originB := "https://go.dev" }

/-- The argument of the `pathname` line `text`. -/
def pathnameOf (lib : Lib) (text : String) : Option String :=
  (directiveOf lib text).bind fun d => if d.1 = "PATHNAME" then some d.2 else none

/-- The first non-empty pathname that the lines `block` give, empty when there
is none. -/
def firstPathname (lib : Lib) (block : List String) : String :=
  ((block.filterMap (pathnameOf lib)).find? (fun p => p ≠ "")).getD ""

/-- The pathname of the last `pathname` line of `block`, empty when there is
none. -/
def lastPathname (lib : Lib) (block : List String) : String :=
  ((block.filterMap (pathnameOf lib)).getLast?).getD ""

/-! ## Theorems -/

theorem step_eq (lib : Lib) (st : ParseState) (text : String) :
    step lib st text =
      match directiveOf lib text with
      | none => .ok { st with lineNo := st.lineNo + 1 }
      | some (field, args) =>
        exec lib { st with lineNo := st.lineNo + 1 } (trimRight (trimSpace text) " \t") field args := by
  unfold step directiveOf
  by_cases h : hasPrefix (trimSpace text) "#" = true
  · simp [h]
  · simp [h]

theorem exec_blank (lib : Lib) (st : ParseState) (line args : String) :
    exec lib st line "" args = .ok { st with testName := "", pathname := "", tasks := [] } := by
  simp [exec]

theorem exec_compare (lib : Lib) (st : ParseState) (line args : String) :
    exec lib st line "COMPARE" args =
      match split args ' ' with
      | originA :: originB :: _ =>
        match lib.urlParse originA with
        | .error e => .error (.urlParse originA e)
        | .ok _ =>
          match lib.urlParse originB with
          | .error e => .error (.urlParse originB e)
          | .ok _ => .ok { st with originA := originA, originB := originB }
      | _ => .panic := by
  simp [exec]

theorem exec_capture (lib : Lib) (st : ParseState) (line args : String) :
    exec lib st line "CAPTURE" args =
      if st.originA = "" ∨ st.originB = "" then .error (.missingCompare st.lineNo)
      else if st.pathname = "" then .error (.missingPathname st.lineNo)
      else
        match captureTest lib st args with
        | .error e => .error e
        | .ok test => .ok { st with tests := st.tests ++ [test] } := by
  simp [exec]

theorem exec_windowsize (lib : Lib) (st : ParseState) (line args : String) :
    exec lib st line "WINDOWSIZE" args =
      match splitDimensions args with
      | .error e => .error (.splitDimensions args e)
      | .ok (width, height) => .ok { st with width := width, height := height } := by
  simp [exec]

theorem exec_test (lib : Lib) (st : ParseState) (line args : String) :
    exec lib st line "TEST" args =
      if st.tests.any (fun t => t.name = args) then .error (.duplicateTestName args st.lineNo)
      else .ok { st with testName := args } := by
  simp [exec]

theorem exec_pathname (lib : Lib) (st : ParseState) (line args : String) :
    exec lib st line "PATHNAME" args =
      match lib.urlParse (st.originA ++ args) with
      | .error e => .error (.urlParse (st.originA ++ args) e)
      | .ok _ =>
        match lib.urlParse (st.originB ++ args) with
        | .error e => .error (.urlParse (st.originB ++ args) e)
        | .ok _ =>
          if st.tests.any (fun t => t.name = (if st.testName = "" then args else st.testName)) then
            .error (.duplicatePathname args st.lineNo)
          else .ok { st with pathname := args,
                             testName := if st.testName = "" then args else st.testName } := by
  simp [exec]

theorem exec_click (lib : Lib) (st : ParseState) (line args : String) :
    exec lib st line "CLICK" args = .ok { st with tasks := st.tasks ++ [Task.Click args] } := by
  simp [exec]

theorem exec_wait (lib : Lib) (st : ParseState) (line args : String) :
    exec lib st line "WAIT" args = .ok { st with tasks := st.tasks ++ [Task.WaitReady args] } := by
  simp [exec]

theorem exec_other (lib : Lib) (st : ParseState) (line field args : String)
    (h0 : field ≠ "") (h1 : field ≠ "COMPARE") (h2 : field ≠ "WINDOWSIZE") (h3 : field ≠ "TEST")
    (h4 : field ≠ "PATHNAME") (h5 : field ≠ "CLICK") (h6 : field ≠ "WAIT")
    (h7 : field ≠ "CAPTURE") :
    exec lib st line field args = .error (.invalidLine st.lineNo line) := by
  simp [exec, h0, h1, h2, h3, h4, h5, h6, h7]

/-- What a line that `exec` accepts does to each variable of `readTests`. -/
theorem exec_ok (lib : Lib) (st st1 : ParseState) (line field args : String)
    (h : exec lib st line field args = .ok st1) :
    st1.lineNo = st.lineNo ∧
    (st1.originA, st1.originB) = (compareArgs field args).getD (st.originA, st.originB) ∧
    (st1.width, st1.height) = (windowsizeArgs field args).getD (st.width, st.height) ∧
    st1.scope = st.scope.next field args ∧
    (field ≠ "CAPTURE" → st1.tests = st.tests) ∧
    (field = "CAPTURE" → ∃ t, captureTest lib st args = .ok t ∧ st1.tests = st.tests ++ [t] ∧
      st.originA ≠ "" ∧ st.originB ≠ "" ∧ st.pathname ≠ "") := by
  by_cases h0 : field = ""
  · subst h0
    rw [exec_blank] at h
    injection h with h; subst h
    simp [compareArgs, windowsizeArgs, ParseState.scope, TestScope.next, TestScope.empty]
  by_cases h1 : field = "COMPARE"
  · subst h1
    rw [exec_compare] at h
    split at h
    · split at h
      · simp at h
      · split at h
        · simp at h
        · injection h with h; subst h
          simp_all [compareArgs, windowsizeArgs, ParseState.scope, TestScope.next]
    · simp at h
  by_cases h2 : field = "WINDOWSIZE"
  · subst h2
    rw [exec_windowsize] at h
    split at h
    · simp at h
    · injection h with h; subst h
      simp_all [compareArgs, windowsizeArgs, ParseState.scope, TestScope.next]
  by_cases h3 : field = "TEST"
  · subst h3
    rw [exec_test] at h
    split at h
    · simp at h
    · injection h with h; subst h
      simp [compareArgs, windowsizeArgs, ParseState.scope, TestScope.next]
  by_cases h4 : field = "PATHNAME"
  · subst h4
    rw [exec_pathname] at h
    split at h
    · simp at h
    · split at h
      · simp at h
      · by_cases hd : (st.tests.any fun t =>
            decide (t.name = if st.testName = "" then args else st.testName)) = true
        · rw [if_pos hd] at h
          simp at h
        · rw [if_neg hd] at h
          injection h with h; subst h
          simp [compareArgs, windowsizeArgs, ParseState.scope, TestScope.next]
  by_cases h5 : field = "CLICK"
  · subst h5
    rw [exec_click] at h
    injection h with h; subst h
    simp [compareArgs, windowsizeArgs, ParseState.scope, TestScope.next]
  by_cases h6 : field = "WAIT"
  · subst h6
    rw [exec_wait] at h
    injection h with h; subst h
    simp [compareArgs, windowsizeArgs, ParseState.scope, TestScope.next]
  by_cases h7 : field = "CAPTURE"
  · subst h7
    rw [exec_capture] at h
    by_cases hA : st.originA = "" ∨ st.originB = ""
    · rw [if_pos hA] at h
      simp at h
    rw [if_neg hA] at h
    by_cases hP : st.pathname = ""
    · rw [if_pos hP] at h
      simp at h
    rw [if_neg hP] at h
    rw [not_or] at hA
    cases ht : captureTest lib st args with
    | error e => rw [ht] at h; simp at h
    | ok t =>
      rw [ht] at h
      injection h with h; subst h
      simp [compareArgs, windowsizeArgs, ParseState.scope, TestScope.next, hA, hP]
  · rw [exec_other lib st line field args h0 h1 h2 h3 h4 h5 h6 h7] at h
    simp at h

theorem captureTest_lineNo (lib : Lib) (st : ParseState) (n : Nat) (args : String) :
    captureTest lib { st with lineNo := n } args = captureTest lib st args := rfl

/-- What a line that `step` accepts does to each variable of `readTests`. -/
theorem step_ok (lib : Lib) (st st1 : ParseState) (text : String)
    (h : step lib st text = .ok st1) :
    st1.lineNo = st.lineNo + 1 ∧
    (st1.originA, st1.originB) = (compareOf lib text).getD (st.originA, st.originB) ∧
    (st1.width, st1.height) = (windowsizeOf lib text).getD (st.width, st.height) ∧
    st1.scope = TestScope.line lib st.scope text ∧
    (isDirective lib "CAPTURE" text = false → st1.tests = st.tests) ∧
    (∀ args, directiveOf lib text = some ("CAPTURE", args) →
      ∃ t, captureTest lib st args = .ok t ∧ st1.tests = st.tests ++ [t] ∧
        st.originA ≠ "" ∧ st.originB ≠ "" ∧ st.pathname ≠ "") := by
  rw [step_eq] at h
  cases hd : directiveOf lib text with
  | none =>
    rw [hd] at h
    injection h with h; subst h
    simp [compareOf, windowsizeOf, TestScope.line, hd, ParseState.scope]
  | some d =>
    obtain ⟨field, args⟩ := d
    rw [hd] at h
    have := exec_ok lib _ st1 _ field args h
    obtain ⟨h1, h2, h3, h4, h5, h6⟩ := this
    refine ⟨h1, ?_, ?_, ?_, ?_, ?_⟩
    · simpa [compareOf, hd] using h2
    · simpa [windowsizeOf, hd] using h3
    · simpa [TestScope.line, hd, ParseState.scope] using h4
    · intro hc
      apply h5
      intro hf
      simp [isDirective, hd, hf] at hc
    · intro args1 ha
      injection ha with ha
      injection ha with hf ha
      subst hf; subst ha
      simpa [captureTest_lineNo] using h6 rfl

theorem getLast?_getD_cons {α : Type} (a d : α) (l : List α) :
    ((a :: l).getLast?).getD d = (l.getLast?).getD a := by
  cases l with
  | nil => simp
  | cons b t =>
    rw [List.getLast?_cons_cons]
    cases h : (b :: t).getLast? with
    | none => simp at h
    | some x => simp

theorem captureCount_cons (lib : Lib) (text : String) (lines : List String) :
    captureCount lib (text :: lines) =
      (if isDirective lib "CAPTURE" text = true then 1 else 0) + captureCount lib lines := by
  unfold captureCount
  by_cases h : isDirective lib "CAPTURE" text = true
  · simp [h, Nat.add_comm]
  · simp [h]

theorem captureCount_append (lib : Lib) (l1 l2 : List String) :
    captureCount lib (l1 ++ l2) = captureCount lib l1 + captureCount lib l2 := by
  simp [captureCount]

theorem isDirective_capture (lib : Lib) (text : String) :
    isDirective lib "CAPTURE" text = true ↔ ∃ args, directiveOf lib text = some ("CAPTURE", args) := by
  unfold isDirective
  cases hd : directiveOf lib text with
  | none => simp
  | some d =>
    obtain ⟨field, args⟩ := d
    simp

/-- What a sequence of lines that `run` accepts does to each variable. -/
theorem run_ok (lib : Lib) (lines : List String) :
    ∀ (st st1 : ParseState), run lib st lines = .ok st1 →
    st1.lineNo = st.lineNo + lines.length ∧
    (st1.originA, st1.originB) =
      ((lines.filterMap (compareOf lib)).getLast?).getD (st.originA, st.originB) ∧
    (st1.width, st1.height) =
      ((lines.filterMap (windowsizeOf lib)).getLast?).getD (st.width, st.height) ∧
    st1.scope = lines.foldl (TestScope.line lib) st.scope ∧
    ∃ more, st1.tests = st.tests ++ more ∧ more.length = captureCount lib lines := by
  induction lines with
  | nil =>
    intro st st1 h
    simp only [run] at h
    injection h with h; subst h
    exact ⟨rfl, rfl, rfl, rfl, [], by simp, rfl⟩
  | cons text rest ih =>
    intro st st1 h
    simp only [run] at h
    cases hs : step lib st text with
    | error e => rw [hs] at h; simp at h
    | panic => rw [hs] at h; simp at h
    | ok s =>
      rw [hs] at h
      simp only at h
      obtain ⟨a1, a2, a3, a4, a5, a6⟩ := step_ok lib st s text hs
      obtain ⟨b1, b2, b3, b4, more, b5, b6⟩ := ih s st1 h
      refine ⟨?_, ?_, ?_, ?_, ?_⟩
      · rw [b1, a1]; simp; omega
      · rw [b2, a2]
        cases hc : compareOf lib text with
        | none => simp [List.filterMap_cons, hc]
        | some o => simp [List.filterMap_cons, hc, getLast?_getD_cons]
      · rw [b3, a3]
        cases hc : windowsizeOf lib text with
        | none => simp [List.filterMap_cons, hc]
        | some o => simp [List.filterMap_cons, hc, getLast?_getD_cons]
      · rw [b4, a4]; rfl
      · by_cases hc : isDirective lib "CAPTURE" text = true
        · obtain ⟨args, ha⟩ := (isDirective_capture lib text).1 hc
          obtain ⟨t, _, ht, _⟩ := a6 args ha
          refine ⟨t :: more, ?_, ?_⟩
          · rw [b5, ht]; simp
          · rw [captureCount_cons]; simp [hc, b6, Nat.add_comm]
        · have hc1 : isDirective lib "CAPTURE" text = false := by simpa using hc
          refine ⟨more, ?_, ?_⟩
          · rw [b5, a5 hc1]
          · rw [captureCount_cons]; simp [hc1, b6]

theorem run_append (lib : Lib) (l1 : List String) :
    ∀ (st : ParseState) (l2 : List String), run lib st (l1 ++ l2) =
      match run lib st l1 with
      | .ok s => run lib s l2
      | .error e => .error e
      | .panic => .panic := by
  induction l1 with
  | nil => intro st l2; simp [run]
  | cons text rest ih =>
    intro st l2
    simp only [List.cons_append, run]
    cases hs : step lib st text with
    | error e => simp
    | panic => simp
    | ok s => simp [ih]

theorem readTests_ok (lib : Lib) (file : ScriptFile) (ts : List testcase)
    (h : readTests lib file = .ok ts) :
    ∃ st, run lib ParseState.init file.lines = .ok st ∧ st.tests = ts := by
  unfold readTests at h
  cases ho : file.openErr with
  | some err => rw [ho] at h; simp at h
  | none =>
    rw [ho] at h
    simp only at h
    cases hr : run lib ParseState.init file.lines with
    | error e => rw [hr] at h; simp at h
    | panic => rw [hr] at h; simp at h
    | ok st =>
      rw [hr] at h
      simp only at h
      cases hs : file.scanErr with
      | some err => rw [hs] at h; simp at h
      | none =>
        rw [hs] at h
        injection h with h
        exact ⟨st, rfl, h⟩

theorem readTests_ofLines (lib : Lib) (lines : List String) :
    readTests lib (ScriptFile.ofLines lines) =
      match run lib ParseState.init lines with
      | .ok st => .ok st.tests
      | .error e => .error e
      | .panic => .panic := by
  unfold readTests ScriptFile.ofLines
  cases run lib ParseState.init lines <;> rfl

/-- The state `readTests` has reached after the lines `pre` it accepts. -/
theorem run_init (lib : Lib) (pre : List String) (s : ParseState)
    (h : run lib ParseState.init pre = .ok s) :
    s.lineNo = pre.length ∧
    (s.originA, s.originB) = lastCompare lib pre ∧
    (s.width, s.height) = lastWindowsize lib pre ∧
    s.scope = TestScope.after lib pre ∧
    s.tests.length = captureCount lib pre := by
  obtain ⟨h1, h2, h3, h4, more, h5, h6⟩ := run_ok lib pre _ s h
  refine ⟨?_, h2, h3, h4, ?_⟩
  · simpa [ParseState.init] using h1
  · rw [h5]; simpa [ParseState.init] using h6

/-- The test case a `capture` line of an accepted script emits: built by
`captureTest` from the state after the lines before it, and found in the
result at the number of `capture` lines before it. -/
theorem emitted_at (lib : Lib) (file : ScriptFile) (ts : List testcase)
    (pre post : List String) (l args : String)
    (hl : file.lines = pre ++ l :: post)
    (hd : directiveOf lib l = some ("CAPTURE", args))
    (hok : readTests lib file = .ok ts) :
    ∃ s t, run lib ParseState.init pre = .ok s ∧ captureTest lib s args = .ok t ∧
      ts[captureCount lib pre]? = some t ∧
      s.originA ≠ "" ∧ s.originB ≠ "" ∧ s.pathname ≠ "" := by
  obtain ⟨st, hr, hts⟩ := readTests_ok lib file ts hok
  rw [hl, run_append] at hr
  cases hp : run lib ParseState.init pre with
  | error e => rw [hp] at hr; simp at hr
  | panic => rw [hp] at hr; simp at hr
  | ok s =>
    rw [hp] at hr
    simp only [run] at hr
    cases hs : step lib s l with
    | error e => rw [hs] at hr; simp at hr
    | panic => rw [hs] at hr; simp at hr
    | ok s2 =>
      rw [hs] at hr
      simp only at hr
      obtain ⟨_, _, _, _, _, a6⟩ := step_ok lib s s2 l hs
      obtain ⟨t, ht, hts2, hA, hB, hP⟩ := a6 args hd
      obtain ⟨_, _, _, _, more, b5, _⟩ := run_ok lib post s2 st hr
      obtain ⟨_, _, _, _, c5⟩ := run_init lib pre s hp
      refine ⟨s, t, rfl, ht, ?_, hA, hB, hP⟩
      rw [← hts, b5, hts2, ← c5, List.append_assoc,
        List.getElem?_append_right (Nat.le_refl _)]
      simp

theorem captureTest_eq (lib : Lib) (st : ParseState) (args : String) :
    captureTest lib st args =
      if toUpper lib (splitOneField args).1 = "FULLSCREEN" ∨
          toUpper lib (splitOneField args).1 = "VIEWPORT" then
        if (splitOneField args).2 ≠ "" then
          match splitDimensions (splitOneField args).2 with
          | .error e => .error (.splitDimensions (splitOneField args).2 e)
          | .ok (w, h) =>
            .ok { name := st.testName ++ (" " ++ formatInt w ++ "x" ++ formatInt h),
                  pathame := st.pathname, tasks := st.tasks,
                  originA := st.originA, originB := st.originB,
                  viewportWidth := w, viewportHeight := h,
                  screenshotType :=
                    if toUpper lib (splitOneField args).1 = "FULLSCREEN" then .fullScreenshot
                    else .viewportScreenshot,
                  screenshotElement := "" }
        else
          .ok { name := st.testName, pathame := st.pathname, tasks := st.tasks,
                originA := st.originA, originB := st.originB,
                viewportWidth := st.width, viewportHeight := st.height,
                screenshotType :=
                  if toUpper lib (splitOneField args).1 = "FULLSCREEN" then .fullScreenshot
                  else .viewportScreenshot,
                screenshotElement := "" }
      else if toUpper lib (splitOneField args).1 = "ELEMENT" then
        .ok { name := st.testName ++ (" " ++ (splitOneField args).2),
              pathame := st.pathname, tasks := st.tasks,
              originA := st.originA, originB := st.originB,
              viewportWidth := st.width, viewportHeight := st.height,
              screenshotType := .elementScreenshot,
              screenshotElement := (splitOneField args).2 }
      else
        .ok { name := st.testName, pathame := st.pathname, tasks := st.tasks,
              originA := st.originA, originB := st.originB,
              viewportWidth := st.width, viewportHeight := st.height,
              screenshotType := .viewportScreenshot, screenshotElement := "" } := by
  unfold captureTest
  generalize splitOneField args = p
  obtain ⟨f0, arg⟩ := p
  simp only
  by_cases h1 : toUpper lib f0 = "FULLSCREEN"
  · by_cases h2 : arg = ""
    · simp [h1, h2]
    · simp only [h1, h2, true_or, if_true, ne_eq, not_false_eq_true]
  · by_cases h3 : toUpper lib f0 = "VIEWPORT"
    · by_cases h2 : arg = ""
      · simp [h3, h2]
      · have hne : ¬ ("VIEWPORT" = "FULLSCREEN") := by decide
        simp only [h3, h2, or_true, if_true, hne, if_false, ne_eq, not_false_eq_true]
    · simp [h1, h3]

theorem captureForm_of_directive (lib : Lib) (l args : String)
    (hd : directiveOf lib l = some ("CAPTURE", args)) :
    captureForm lib l = some (toUpper lib (splitOneField args).1, (splitOneField args).2) := by
  simp [captureForm, hd]

/-- The fields of the test case a `capture` line builds, in terms of the
state before the line and of the line's own size or selector. -/
theorem captureTest_fields (lib : Lib) (st : ParseState) (l args : String) (t : testcase)
    (hd : directiveOf lib l = some ("CAPTURE", args))
    (h : captureTest lib st args = .ok t) :
    t.pathame = st.pathname ∧ t.tasks = st.tasks ∧
    t.originA = st.originA ∧ t.originB = st.originB ∧
    t.name = st.testName ++ captureSuffix lib l ∧
    (t.viewportWidth, t.viewportHeight) = (captureSize lib l).getD (st.width, st.height) ∧
    t.screenshotType = captureKind lib l := by
  have hf := captureForm_of_directive lib l args hd
  rw [captureTest_eq] at h
  unfold captureSuffix captureSize captureKind
  rw [hf]
  simp only
  by_cases h1 : toUpper lib (splitOneField args).1 = "FULLSCREEN" ∨
      toUpper lib (splitOneField args).1 = "VIEWPORT"
  · rw [if_pos h1] at h
    rw [if_pos h1]
    by_cases h2 : (splitOneField args).2 = ""
    · simp only [h2, ne_eq, not_true_eq_false, if_false] at h
      injection h with h; subst h
      simp only [h2, ne_eq, not_true_eq_false, and_false, if_false, Option.getD_none,
        String.append_empty, true_and]
      split_ifs <;> simp_all
    · rw [if_pos h2] at h
      cases hs : splitDimensions (splitOneField args).2 with
      | error e => rw [hs] at h; simp at h
      | ok d =>
        obtain ⟨w, hh⟩ := d
        rw [hs] at h
        injection h with h; subst h
        simp only [h1, h2, Except.toOption, ne_eq, not_false_eq_true, and_self, if_true,
          Option.getD_some, true_and]
        split_ifs <;> simp_all
  · rw [if_neg h1] at h
    rw [if_neg h1]
    by_cases h3 : toUpper lib (splitOneField args).1 = "ELEMENT"
    · rw [if_pos h3] at h
      injection h with h; subst h
      simp [h1, h3]
    · rw [if_neg h3] at h
      injection h with h; subst h
      rw [not_or] at h1
      simp [h1, h3]

/-- Claim C1. For every script that `readTests` compiles without error, the
number of test cases returned equals the number of lines of the script whose
directive (the first field of the trimmed line, in upper case, comment lines
skipped) is `capture`. -/
theorem readTests_length_eq_captureCount (lib : Lib) (file : ScriptFile) (ts : List testcase)
    (h : readTests lib file = .ok ts) :
    ts.length = (file.lines.filter (isDirective lib "CAPTURE")).length := by
  obtain ⟨st, hr, hts⟩ := readTests_ok lib file ts h
  obtain ⟨_, _, _, _, h5⟩ := run_init lib file.lines st hr
  rw [← hts, h5]
  rfl


set_option maxRecDepth 100000 in
/-- Witness for C1: the chained-capture script of the package documentation
compiles to six test cases, and has six `capture` lines. -/
theorem readTests_length_eq_captureCount_witness :
    readTests Lib.lenient (ScriptFile.ofLines docScript) = .ok docCases ∧
      docCases.length = ((ScriptFile.ofLines docScript).lines.filter
        (isDirective Lib.lenient "CAPTURE")).length :=
  ⟨by decide,
   readTests_length_eq_captureCount Lib.lenient (ScriptFile.ofLines docScript) docCases
     (by decide)⟩

theorem step_test (lib : Lib) (s : ParseState) (l name : String)
    (hl : directiveOf lib l = some ("TEST", name)) :
    step lib s l =
      if s.tests.any (fun t => t.name = name) then
        .error (.duplicateTestName name (s.lineNo + 1))
      else .ok { s with lineNo := s.lineNo + 1, testName := name } := by
  rw [step_eq, hl]
  simp only
  rw [exec_test]

/-- Claim C3, amended. When a `test NAME` line is reached, the lines before it
compiling, and a test case named exactly `NAME` has already been emitted,
`readTests` fails with the duplicate-name error that cites the 1-based number
of that line, whatever follows it, and returns no test cases; when no test
case of that name has been emitted, the line is accepted, also when it
repeats the name of an earlier `test` line. -/
theorem test_directive_duplicate_check (lib : Lib) (pre post : List String) (l name : String)
    (ts : List testcase) (scanErr : Option String)
    (hpre : readTests lib (ScriptFile.ofLines pre) = .ok ts)
    (hl : directiveOf lib l = some ("TEST", name)) :
    ((∃ t ∈ ts, t.name = name) →
      readTests lib { openErr := none, lines := pre ++ l :: post, scanErr := scanErr } =
        .error (.duplicateTestName name (pre.length + 1))) ∧
    ((¬ ∃ t ∈ ts, t.name = name) →
      readTests lib (ScriptFile.ofLines (pre ++ [l])) = .ok ts) := by
  obtain ⟨s, hr, hts⟩ := readTests_ok lib _ ts hpre
  change run lib ParseState.init pre = .ok s at hr
  have hln := (run_init lib pre s hr).1
  have hstep := step_test lib s l name hl
  constructor
  · intro hdup
    have hany : (s.tests.any fun t => decide (t.name = name)) = true := by
      rw [hts]; simpa using hdup
    rw [if_pos hany, hln] at hstep
    unfold readTests
    simp only
    rw [run_append, hr]
    simp only [run]
    rw [hstep]
  · intro hnd
    have hany : ¬ (s.tests.any fun t => decide (t.name = name)) = true := by
      rw [hts]; simpa using hnd
    rw [if_neg hany] at hstep
    rw [readTests_ofLines, run_append, hr]
    simp only [run]
    rw [hstep]
    simp only
    exact congrArg _ hts

theorem captureForm_some (lib : Lib) (l sub arg : String)
    (h : captureForm lib l = some (sub, arg)) :
    ∃ args, directiveOf lib l = some ("CAPTURE", args) ∧
      sub = toUpper lib (splitOneField args).1 ∧ arg = (splitOneField args).2 := by
  unfold captureForm at h
  cases hd : directiveOf lib l with
  | none => rw [hd] at h; simp at h
  | some d =>
    obtain ⟨field, args⟩ := d
    rw [hd] at h
    simp only at h
    by_cases hf : field = "CAPTURE"
    · rw [if_pos hf] at h
      injection h with h
      injection h with h1 h2
      exact ⟨args, by rw [hf], h1.symm, h2.symm⟩
    · rw [if_neg hf] at h
      simp at h

theorem splitDimensions_empty : splitDimensions "" = .error (.fields "") := rfl

theorem TestScope.after_append_blank (lib : Lib) (pre block : List String) (blank : String)
    (hb : isDirective lib "" blank = true) :
    TestScope.after lib (pre ++ blank :: block) = TestScope.after lib block := by
  unfold TestScope.after
  rw [List.foldl_append, List.foldl_cons]
  congr 1
  unfold isDirective at hb
  unfold TestScope.line
  cases hd : directiveOf lib blank with
  | none => rw [hd] at hb; simp at hb
  | some d =>
    obtain ⟨field, args⟩ := d
    rw [hd] at hb
    simp at hb
    simp [hb, TestScope.next]

/-- Claim C4, amended. A blank line resets exactly the test name, the pathname
and the action sequence, and leaves the window size and the two origins as
they were: a test case emitted by a `capture` line after a blank line carries
the origins of the most recent `compare` line and, unless the `capture` line
gives a size of its own, the dimensions of the most recent `windowsize` line
of everything before it in the script, while its name (up to the suffix the
`capture` line adds), its pathname and its actions are those the lines after
the blank line give, read from an empty test scope. -/
theorem blank_line_resets_test_scope_only (lib : Lib) (file : ScriptFile) (ts : List testcase)
    (pre block post : List String) (blank l : String)
    (hl : file.lines = pre ++ blank :: (block ++ l :: post))
    (hb : isDirective lib "" blank = true)
    (hc : isDirective lib "CAPTURE" l = true)
    (hok : readTests lib file = .ok ts) :
    ∃ t, ts[captureCount lib (pre ++ blank :: block)]? = some t ∧
      (t.originA, t.originB) = lastCompare lib (pre ++ blank :: block) ∧
      (t.viewportWidth, t.viewportHeight) =
        (captureSize lib l).getD (lastWindowsize lib (pre ++ blank :: block)) ∧
      t.name = (TestScope.after lib block).testName ++ captureSuffix lib l ∧
      t.pathame = (TestScope.after lib block).pathname ∧
      t.tasks = (TestScope.after lib block).tasks := by
  obtain ⟨args, hd⟩ := (isDirective_capture lib l).1 hc
  have hl2 : file.lines = (pre ++ blank :: block) ++ l :: post := by
    rw [hl]; simp
  obtain ⟨s, t, hr, ht, hget, _, _, _⟩ := emitted_at lib file ts _ post l args hl2 hd hok
  obtain ⟨_, r2, r3, r4, _⟩ := run_init lib _ s hr
  obtain ⟨f1, f2, f3, f4, f5, f6, _⟩ := captureTest_fields lib s l args t hd ht
  rw [TestScope.after_append_blank lib pre block blank hb] at r4
  have hA : s.originA = (lastCompare lib (pre ++ blank :: block)).1 := by rw [← r2]
  have hB : s.originB = (lastCompare lib (pre ++ blank :: block)).2 := by rw [← r2]
  refine ⟨t, hget, ?_, ?_, ?_, ?_, ?_⟩
  · rw [f3, f4, hA, hB]
  · rw [f6, r3]
  · rw [f5, ← r4]; rfl
  · rw [f1, ← r4]; rfl
  · rw [f2, ← r4]; rfl

/-- Claim C5. A line `capture fullscreen WxH` or `capture viewport WxH` of a
script that compiles emits a test case with `viewportWidth = W`,
`viewportHeight = H` and the current test name followed by ` WxH` as its
name, whatever follows the line; and it leaves the persistent window size
alone: every later `capture` line with no argument (`capture`,
`capture viewport`, `capture fullscreen`) emits a test case of kind viewport
(full page for `fullscreen`) whose dimensions are those of the last
`windowsize` line before it (`0x0` when there is none) and whose name is the
current test name with no suffix. -/
theorem capture_size_overrides_test_case_only (lib : Lib) (file : ScriptFile)
    (ts : List testcase) (pre rest : List String) (l1 sub1 size : String) (w h : Int)
    (hl : file.lines = pre ++ l1 :: rest)
    (h1 : captureForm lib l1 = some (sub1, size))
    (hs1 : sub1 = "FULLSCREEN" ∨ sub1 = "VIEWPORT")
    (hsz : splitDimensions size = .ok (w, h))
    (hok : readTests lib file = .ok ts) :
    (∃ t1, ts[captureCount lib pre]? = some t1 ∧
      t1.viewportWidth = w ∧ t1.viewportHeight = h ∧
      t1.name = (TestScope.after lib pre).testName ++
        (" " ++ formatInt w ++ "x" ++ formatInt h)) ∧
    (∀ (mid post : List String) (l2 sub2 : String), rest = mid ++ l2 :: post →
      captureForm lib l2 = some (sub2, "") → sub2 ≠ "ELEMENT" →
      ∃ t2, ts[captureCount lib (pre ++ l1 :: mid)]? = some t2 ∧
        (t2.viewportWidth, t2.viewportHeight) = lastWindowsize lib (pre ++ l1 :: mid) ∧
        lastWindowsize lib (pre ++ l1 :: mid) = lastWindowsize lib (pre ++ mid) ∧
        t2.screenshotType =
          (if sub2 = "FULLSCREEN" then .fullScreenshot else .viewportScreenshot) ∧
        t2.name = (TestScope.after lib (pre ++ l1 :: mid)).testName) := by
  obtain ⟨args1, hd1, e1, e2⟩ := captureForm_some lib l1 sub1 size h1
  have hw1 : windowsizeOf lib l1 = none := by
    simp [windowsizeOf, hd1, windowsizeArgs]
  constructor
  · obtain ⟨s1, t1, hr1, ht1, hget1, _, _, _⟩ :=
      emitted_at lib file ts pre rest l1 args1 hl hd1 hok
    obtain ⟨_, _, _, p4, _⟩ := run_init lib _ s1 hr1
    obtain ⟨_, _, _, _, f5, f6, _⟩ := captureTest_fields lib s1 l1 args1 t1 hd1 ht1
    have hne : size ≠ "" := by
      intro he
      rw [he, splitDimensions_empty] at hsz
      simp at hsz
    have hsize1 : captureSize lib l1 = some (w, h) := by
      simp [captureSize, h1, hs1, hne, hsz, Except.toOption]
    have hsuf1 : captureSuffix lib l1 = " " ++ formatInt w ++ "x" ++ formatInt h := by
      simp [captureSuffix, h1, hs1, hsize1]
    rw [hsize1] at f6
    simp only [Option.getD_some, Prod.mk.injEq] at f6
    refine ⟨t1, hget1, f6.1, f6.2, ?_⟩
    rw [f5, hsuf1, ← p4]; rfl
  · intro mid post l2 sub2 hrest h2 hs2
    obtain ⟨args2, hd2, e3, e4⟩ := captureForm_some lib l2 sub2 "" h2
    have hl2 : file.lines = (pre ++ l1 :: mid) ++ l2 :: post := by
      rw [hl, hrest]; simp
    obtain ⟨s2, t2, hr2, ht2, hget2, _, _, _⟩ :=
      emitted_at lib file ts _ post l2 args2 hl2 hd2 hok
    obtain ⟨_, _, q3, q4, _⟩ := run_init lib _ s2 hr2
    obtain ⟨_, _, _, _, g5, g6, g7⟩ := captureTest_fields lib s2 l2 args2 t2 hd2 ht2
    have hsize2 : captureSize lib l2 = none := by
      simp [captureSize, h2]
    have hsuf2 : captureSuffix lib l2 = "" := by
      simp [captureSuffix, h2, hsize2, hs2]
    have hkind2 : captureKind lib l2 =
        (if sub2 = "FULLSCREEN" then .fullScreenshot else .viewportScreenshot) := by
      simp only [captureKind, h2]
      split_ifs <;> simp_all
    refine ⟨t2, hget2, ?_, ?_, ?_, ?_⟩
    · rw [g6, hsize2, ← q3]; rfl
    · simp [lastWindowsize, List.filterMap_append, List.filterMap_cons, hw1]
    · rw [g7, hkind2]
    · rw [g5, hsuf2, String.append_empty, ← q4]; rfl

/-! ### The diff engine -/

theorem FS.mem_paths_remove {Image : Type} (fs : FS Image) (q p : String) :
    p ∈ (fs.remove q).paths ↔ p ≠ q ∧ p ∈ fs.paths := by
  induction fs with
  | nil => simp [FS.remove, FS.paths]
  | cons e rest ih =>
    obtain ⟨k, d⟩ := e
    unfold FS.paths at ih ⊢
    by_cases hk : k = q
    · simp only [FS.remove, hk, if_true, ih, List.map_cons, List.mem_cons]
      constructor
      · rintro ⟨h1, h2⟩; exact ⟨h1, Or.inr h2⟩
      · rintro ⟨h1, h2 | h2⟩
        · exact absurd h2 h1
        · exact ⟨h1, h2⟩
    · simp only [FS.remove, hk, if_false, List.map_cons, List.mem_cons, ih]
      constructor
      · rintro (h1 | ⟨h1, h2⟩)
        · exact ⟨fun hh => hk (h1 ▸ hh), Or.inl h1⟩
        · exact ⟨h1, Or.inr h2⟩
      · rintro ⟨h1, h2 | h2⟩
        · exact Or.inl h2
        · exact Or.inr ⟨h1, h2⟩

theorem FS.mem_paths_write {Image : Type} (fs : FS Image) (q : String) (d : FileData Image)
    (p : String) : p ∈ (fs.write q d).paths ↔ p = q ∨ p ∈ fs.paths := by
  have h := FS.mem_paths_remove fs q p
  unfold FS.paths at h ⊢
  unfold FS.write
  simp only [List.map_cons, List.mem_cons, h]
  by_cases hp : p = q
  · simp [hp]
  · simp [hp]

theorem FS.read_remove {Image : Type} (fs : FS Image) (q p : String) (h : p ≠ q) :
    FS.read (fs.remove q) p = FS.read fs p := by
  induction fs with
  | nil => rfl
  | cons e rest ih =>
    obtain ⟨k, d⟩ := e
    by_cases hk : k = q
    · have hkp : ¬ k = p := fun hh => h (hh ▸ hk)
      simp only [FS.remove, hk, if_true, FS.read, ih]
      rw [if_neg (hk ▸ hkp)]
    · simp only [FS.remove, hk, if_false, FS.read, ih]

theorem FS.read_write {Image : Type} (fs : FS Image) (q : String) (d : FileData Image)
    (p : String) : (fs.write q d).read p = if q = p then some d else fs.read p := by
  unfold FS.write
  by_cases h : q = p
  · simp [FS.read, h]
  · have h2 : p ≠ q := fun hh => h hh.symm
    simp [FS.read, h, FS.read_remove fs q p h2]

theorem FS.remove_of_not_mem {Image : Type} (fs : FS Image) (q : String)
    (h : q ∉ fs.paths) : fs.remove q = fs := by
  induction fs with
  | nil => rfl
  | cons e rest ih =>
    obtain ⟨k, d⟩ := e
    unfold FS.paths at h ih
    simp only [List.map_cons, List.mem_cons, not_or] at h
    have hk : ¬ k = q := fun hh => h.1 hh.symm
    simp only [FS.remove, hk, if_false]
    rw [ih h.2]

theorem FS.length_write {Image : Type} (fs : FS Image) (q : String) (d : FileData Image)
    (h : q ∉ fs.paths) : (fs.write q d).length = fs.length + 1 := by
  unfold FS.write
  rw [FS.remove_of_not_mem fs q h]
  rfl

theorem writePNG_ok {Image : Type} (eng : Engine Image) (fs : FS Image) (i : Image)
    (filename : String) (hcreate : ∀ p, eng.osCreate p = none)
    (hencode : ∀ i, eng.pngEncode i = none) (hclose : ∀ p, eng.fileClose p = none) :
    writePNG eng fs i filename = (fs.write (filename ++ ".png") (.png i), none) := by
  simp [writePNG, hcreate, hencode, hclose]

theorem runJob_ok {Image : Type} (eng : Engine Image) (jobs : List (Image × String))
    (fs : FS Image) (job : Image × String) (hcreate : ∀ p, eng.osCreate p = none)
    (hencode : ∀ i, eng.pngEncode i = none) (hclose : ∀ p, eng.fileClose p = none) :
    runJob eng jobs fs job = (fs.write (job.2 ++ ".png") (jobData jobs job), none) := by
  unfold runJob jobData
  by_cases h : shared jobs job.2 = true
  · simp [h, hcreate, writePNG_ok eng fs job.1 job.2 hcreate hencode hclose]
  · simp [h, writePNG_ok eng fs job.1 job.2 hcreate hencode hclose]

theorem runGroup_three {Image : Type} (eng : Engine Image) (jobs : List (Image × String))
    (fs : FS Image) (j1 j2 j3 : Image × String) (hcreate : ∀ p, eng.osCreate p = none)
    (hencode : ∀ i, eng.pngEncode i = none) (hclose : ∀ p, eng.fileClose p = none) :
    runGroup eng jobs fs [j1, j2, j3] =
      ((((fs.write (j1.2 ++ ".png") (jobData jobs j1)).write (j2.2 ++ ".png")
        (jobData jobs j2)).write (j3.2 ++ ".png") (jobData jobs j3)), none) := by
  simp [runGroup, runJob_ok, hcreate, hencode, hclose]

theorem append_png_inj (a b : String) (h : a ++ ".png" = b ++ ".png") : a = b := by
  have h1 := congrArg String.data h
  simp only [String.data_append] at h1
  exact String.ext (List.append_cancel_right h1)

theorem file_inj (o a b : String) (h : o ++ "." ++ a = o ++ "." ++ b) : a = b := by
  have h1 := congrArg String.data h
  simp only [String.data_append, List.append_assoc] at h1
  exact String.ext (List.append_cancel_left (List.append_cancel_left h1))

theorem diffFile_eq (o : String) : o ++ ".diff" = o ++ "." ++ "diff" := by
  apply String.ext
  simp [String.data_append]

/-- What three successive writes leave in the file system. -/
theorem three_writes {Image : Type} (fs : FS Image) (p1 p2 p3 : String)
    (d1 d2 d3 : FileData Image) :
    (∀ p, p ∈ (((fs.write p1 d1).write p2 d2).write p3 d3).paths ↔
      p = p1 ∨ p = p2 ∨ p = p3 ∨ p ∈ fs.paths) ∧
    (∀ p, p ≠ p1 → p ≠ p2 → p ≠ p3 →
      (((fs.write p1 d1).write p2 d2).write p3 d3).read p = fs.read p) ∧
    (p1 ≠ p2 → p1 ≠ p3 → p2 ≠ p3 →
      (((fs.write p1 d1).write p2 d2).write p3 d3).read p1 = some d1 ∧
      (((fs.write p1 d1).write p2 d2).write p3 d3).read p2 = some d2 ∧
      (((fs.write p1 d1).write p2 d2).write p3 d3).read p3 = some d3 ∧
      (p1 ∉ fs.paths → p2 ∉ fs.paths → p3 ∉ fs.paths →
        (((fs.write p1 d1).write p2 d2).write p3 d3).length = fs.length + 3)) := by
  refine ⟨?_, ?_, ?_⟩
  · intro p
    simp only [FS.mem_paths_write]
    tauto
  · intro p h1 h2 h3
    simp only [FS.read_write]
    rw [if_neg (Ne.symm h3), if_neg (Ne.symm h2), if_neg (Ne.symm h1)]
  · intro h12 h13 h23
    refine ⟨?_, ?_, ?_, ?_⟩
    · simp only [FS.read_write]
      rw [if_neg (Ne.symm h13), if_neg (Ne.symm h12)]
      simp
    · simp only [FS.read_write]
      rw [if_neg (Ne.symm h23)]
      simp
    · simp only [FS.read_write]
      simp
    · intro n1 n2 n3
      have m2 : p2 ∉ (fs.write p1 d1).paths := by
        rw [FS.mem_paths_write]
        rintro (h | h)
        · exact h12 h.symm
        · exact n2 h
      have m3 : p3 ∉ ((fs.write p1 d1).write p2 d2).paths := by
        rw [FS.mem_paths_write, FS.mem_paths_write]
        rintro (h | h | h)
        · exact h23 h.symm
        · exact h13 h.symm
        · exact n3 h
      rw [FS.length_write _ _ _ m3, FS.length_write _ _ _ m2, FS.length_write _ _ _ n1]

theorem jobData_of_distinct {Image : Type} (j1 j2 j3 : Image × String)
    (h12 : j1.2 ≠ j2.2) (h13 : j1.2 ≠ j3.2) (h23 : j2.2 ≠ j3.2) :
    jobData [j1, j2, j3] j1 = .png j1.1 ∧ jobData [j1, j2, j3] j2 = .png j2.1 ∧
      jobData [j1, j2, j3] j3 = .png j3.1 := by
  refine ⟨?_, ?_, ?_⟩
  · simp [jobData, shared, List.filter_cons, h12.symm, h13.symm]
  · simp [jobData, shared, List.filter_cons, h12, h23.symm]
  · simp [jobData, shared, List.filter_cons, h13, h23]

/-- What a group of three goroutines leaves when every write succeeds. -/
theorem runGroup_triple {Image : Type} (eng : Engine Image) (fs : FS Image)
    (j1 j2 j3 : Image × String) (hcreate : ∀ p, eng.osCreate p = none)
    (hencode : ∀ i, eng.pngEncode i = none) (hclose : ∀ p, eng.fileClose p = none) :
    (runGroup eng [j1, j2, j3] fs [j1, j2, j3]).2 = none ∧
    (∀ p, p ∈ (runGroup eng [j1, j2, j3] fs [j1, j2, j3]).1.paths ↔
      p = j1.2 ++ ".png" ∨ p = j2.2 ++ ".png" ∨ p = j3.2 ++ ".png" ∨ p ∈ fs.paths) ∧
    (∀ p, p ≠ j1.2 ++ ".png" → p ≠ j2.2 ++ ".png" → p ≠ j3.2 ++ ".png" →
      (runGroup eng [j1, j2, j3] fs [j1, j2, j3]).1.read p = fs.read p) ∧
    (j1.2 ≠ j2.2 → j1.2 ≠ j3.2 → j2.2 ≠ j3.2 →
      (runGroup eng [j1, j2, j3] fs [j1, j2, j3]).1.read (j1.2 ++ ".png") = some (.png j1.1) ∧
      (runGroup eng [j1, j2, j3] fs [j1, j2, j3]).1.read (j2.2 ++ ".png") = some (.png j2.1) ∧
      (runGroup eng [j1, j2, j3] fs [j1, j2, j3]).1.read (j3.2 ++ ".png") = some (.png j3.1) ∧
      (j1.2 ++ ".png" ∉ fs.paths → j2.2 ++ ".png" ∉ fs.paths → j3.2 ++ ".png" ∉ fs.paths →
        (runGroup eng [j1, j2, j3] fs [j1, j2, j3]).1.length = fs.length + 3)) := by
  rw [runGroup_three eng _ fs j1 j2 j3 hcreate hencode hclose]
  obtain ⟨T1, T2, T3⟩ := three_writes fs (j1.2 ++ ".png") (j2.2 ++ ".png") (j3.2 ++ ".png")
    (jobData [j1, j2, j3] j1) (jobData [j1, j2, j3] j2) (jobData [j1, j2, j3] j3)
  refine ⟨rfl, T1, T2, ?_⟩
  intro h12 h13 h23
  obtain ⟨e1, e2, e3⟩ := jobData_of_distinct j1 j2 j3 h12 h13 h23
  have k12 : j1.2 ++ ".png" ≠ j2.2 ++ ".png" := fun h => h12 (append_png_inj _ _ h)
  have k13 : j1.2 ++ ".png" ≠ j3.2 ++ ".png" := fun h => h13 (append_png_inj _ _ h)
  have k23 : j2.2 ++ ".png" ≠ j3.2 ++ ".png" := fun h => h23 (append_png_inj _ _ h)
  obtain ⟨r1, r2, r3, r4⟩ := T3 k12 k13 k23
  exact ⟨r1.trans (congrArg some e1), r2.trans (congrArg some e2),
    r3.trans (congrArg some e3), r4⟩

theorem or_dBA (d a b f : Prop) : (d ∨ b ∨ a ∨ f) ↔ (d ∨ a ∨ b ∨ f) := by tauto

theorem or_AdB (d a b f : Prop) : (a ∨ d ∨ b ∨ f) ↔ (d ∨ a ∨ b ∨ f) := by tauto

theorem or_ABd (d a b f : Prop) : (a ∨ b ∨ d ∨ f) ↔ (d ∨ a ∨ b ∨ f) := by tauto

theorem or_BdA (d a b f : Prop) : (b ∨ d ∨ a ∨ f) ↔ (d ∨ a ∨ b ∨ f) := by tauto

theorem or_BAd (d a b f : Prop) : (b ∨ a ∨ d ∨ f) ↔ (d ∨ a ∨ b ∨ f) := by tauto

/-- What the three goroutines of `runDiff` leave when every write succeeds,
whatever the order they run in. -/
theorem runGroup_order {Image : Type} (eng : Engine Image) (fs : FS Image) (sched : Schedule)
    (jd ja jb : Image × String) (hcreate : ∀ p, eng.osCreate p = none)
    (hencode : ∀ i, eng.pngEncode i = none) (hclose : ∀ p, eng.fileClose p = none) :
    (runGroup eng (sched.order jd ja jb) fs (sched.order jd ja jb)).2 = none ∧
    (∀ p, p ∈ (runGroup eng (sched.order jd ja jb) fs (sched.order jd ja jb)).1.paths ↔
      p = jd.2 ++ ".png" ∨ p = ja.2 ++ ".png" ∨ p = jb.2 ++ ".png" ∨ p ∈ fs.paths) ∧
    (∀ p, p ≠ jd.2 ++ ".png" → p ≠ ja.2 ++ ".png" → p ≠ jb.2 ++ ".png" →
      (runGroup eng (sched.order jd ja jb) fs (sched.order jd ja jb)).1.read p = fs.read p) ∧
    (jd.2 ≠ ja.2 → jd.2 ≠ jb.2 → ja.2 ≠ jb.2 →
      (runGroup eng (sched.order jd ja jb) fs (sched.order jd ja jb)).1.read (jd.2 ++ ".png") =
        some (.png jd.1) ∧
      (runGroup eng (sched.order jd ja jb) fs (sched.order jd ja jb)).1.read (ja.2 ++ ".png") =
        some (.png ja.1) ∧
      (runGroup eng (sched.order jd ja jb) fs (sched.order jd ja jb)).1.read (jb.2 ++ ".png") =
        some (.png jb.1) ∧
      (jd.2 ++ ".png" ∉ fs.paths → ja.2 ++ ".png" ∉ fs.paths → jb.2 ++ ".png" ∉ fs.paths →
        (runGroup eng (sched.order jd ja jb) fs (sched.order jd ja jb)).1.length =
          fs.length + 3)) := by
  cases sched with
  | dAB =>
    obtain ⟨a, b, c, d⟩ := runGroup_triple eng fs jd ja jb hcreate hencode hclose
    exact ⟨a, b, c, d⟩
  | dBA =>
    obtain ⟨a, b, c, d⟩ := runGroup_triple eng fs jd jb ja hcreate hencode hclose
    refine ⟨a, fun p => (b p).trans (or_dBA _ _ _ _), fun p h1 h2 h3 => c p h1 h3 h2, ?_⟩
    intro hda hdb hab
    obtain ⟨r1, r2, r3, r4⟩ := d hdb hda hab.symm
    exact ⟨r1, r3, r2, fun nd na nb => r4 nd nb na⟩
  | AdB =>
    obtain ⟨a, b, c, d⟩ := runGroup_triple eng fs ja jd jb hcreate hencode hclose
    refine ⟨a, fun p => (b p).trans (or_AdB _ _ _ _), fun p h1 h2 h3 => c p h2 h1 h3, ?_⟩
    intro hda hdb hab
    obtain ⟨r1, r2, r3, r4⟩ := d hda.symm hab hdb
    exact ⟨r2, r1, r3, fun nd na nb => r4 na nd nb⟩
  | ABd =>
    obtain ⟨a, b, c, d⟩ := runGroup_triple eng fs ja jb jd hcreate hencode hclose
    refine ⟨a, fun p => (b p).trans (or_ABd _ _ _ _), fun p h1 h2 h3 => c p h2 h3 h1, ?_⟩
    intro hda hdb hab
    obtain ⟨r1, r2, r3, r4⟩ := d hab hda.symm hdb.symm
    exact ⟨r3, r1, r2, fun nd na nb => r4 na nb nd⟩
  | BdA =>
    obtain ⟨a, b, c, d⟩ := runGroup_triple eng fs jb jd ja hcreate hencode hclose
    refine ⟨a, fun p => (b p).trans (or_BdA _ _ _ _), fun p h1 h2 h3 => c p h3 h1 h2, ?_⟩
    intro hda hdb hab
    obtain ⟨r1, r2, r3, r4⟩ := d hdb.symm hab.symm hda
    exact ⟨r2, r3, r1, fun nd na nb => r4 nb nd na⟩
  | BAd =>
    obtain ⟨a, b, c, d⟩ := runGroup_triple eng fs jb ja jd hcreate hencode hclose
    refine ⟨a, fun p => (b p).trans (or_BAd _ _ _ _), fun p h1 h2 h3 => c p h3 h2 h1, ?_⟩
    intro hda hdb hab
    obtain ⟨r1, r2, r3, r4⟩ := d hab.symm hdb.symm hda.symm
    exact ⟨r3, r2, r1, fun nd na nb => r4 nb na nd⟩

/-- What `runDiff` does when the two URLs parse, the two captures succeed and
differ, both decode and every write succeeds: it runs the group of the three
goroutines and returns the mismatch error. -/
theorem runDiff_mismatch {Image : Type} (lib : Lib) (eng : Engine Image) (sched : Schedule)
    (fs : FS Image) (test : testcase) (out : String) (urlA urlB : URL)
    (screenA screenB : List UInt8) (imgA imgB : Image)
    (hA : lib.urlParse (test.originA ++ test.pathame) = .ok urlA)
    (hB : lib.urlParse (test.originB ++ test.pathame) = .ok urlB)
    (hcA : captureScreenshot eng 0 urlA test = .ok screenA)
    (hcB : captureScreenshot eng 1 urlB test = .ok screenB)
    (hcreate : ∀ p, eng.osCreate p = none) (hencode : ∀ i, eng.pngEncode i = none)
    (hclose : ∀ p, eng.fileClose p = none)
    (hne : screenA ≠ screenB)
    (hdA : eng.imageDecode screenA = .ok imgA) (hdB : eng.imageDecode screenB = .ok imgB) :
    runDiff lib eng sched fs test out =
      ((runGroup eng
          (sched.order (eng.imgdiff imgA imgB, outfile out test ++ ".diff")
            (imgA, outfile out test ++ "." ++ sanitized urlA.Host)
            (imgB, outfile out test ++ "." ++ sanitized urlB.Host)) fs
          (sched.order (eng.imgdiff imgA imgB, outfile out test ++ ".diff")
            (imgA, outfile out test ++ "." ++ sanitized urlA.Host)
            (imgB, outfile out test ++ "." ++ sanitized urlB.Host))).1,
        some (.mismatch urlA.text urlB.text)) := by
  have h2 := (runGroup_order eng fs sched (eng.imgdiff imgA imgB, outfile out test ++ ".diff")
    (imgA, outfile out test ++ "." ++ sanitized urlA.Host)
    (imgB, outfile out test ++ "." ++ sanitized urlB.Host) hcreate hencode hclose).1
  unfold runDiff
  simp only [hA, hB, hcA, hcB, hne, if_false, hdA, hdB]
  unfold outfile at h2 ⊢
  revert h2
  generalize runGroup eng _ fs _ = r
  obtain ⟨fs1, e⟩ := r
  intro h2
  simp only at h2
  subst h2
  rfl

/-- The artifacts of `runDiff`.  For a test case whose two URLs parse and
whose two captures succeed, with every write succeeding and whatever the
order of the three goroutines: when the captures are byte-identical `runDiff`
leaves the file system as it was and returns nil; when they differ and both
decode, it returns the mismatch error at the two URLs and writes exactly the
paths `P.diff.png`, `P.<sanitized host A>.png` and `P.<sanitized host B>.png`,
where `P` is `filepath.Join` of the output directory and the sanitized test
name, every other file staying as it was.  When the two sanitized hosts
differ from each other and from `diff`, these are three files, holding the
diff image and the two decoded screenshots, and three files more than before
when none of them was there. -/
theorem runDiff_artifacts {Image : Type} (lib : Lib) (eng : Engine Image) (sched : Schedule)
    (fs : FS Image) (test : testcase) (out : String) (urlA urlB : URL)
    (screenA screenB : List UInt8)
    (hA : lib.urlParse (test.originA ++ test.pathame) = .ok urlA)
    (hB : lib.urlParse (test.originB ++ test.pathame) = .ok urlB)
    (hcA : captureScreenshot eng 0 urlA test = .ok screenA)
    (hcB : captureScreenshot eng 1 urlB test = .ok screenB)
    (hcreate : ∀ p, eng.osCreate p = none) (hencode : ∀ i, eng.pngEncode i = none)
    (hclose : ∀ p, eng.fileClose p = none) :
    (screenA = screenB → runDiff lib eng sched fs test out = (fs, none)) ∧
    (screenA ≠ screenB → ∀ imgA imgB : Image,
      eng.imageDecode screenA = .ok imgA → eng.imageDecode screenB = .ok imgB →
      (runDiff lib eng sched fs test out).2 = some (.mismatch urlA.text urlB.text) ∧
      (∀ p, p ∈ (runDiff lib eng sched fs test out).1.paths ↔
        p = diffPath out test ∨ p = shotPath out test urlA ∨
          p = shotPath out test urlB ∨ p ∈ fs.paths) ∧
      (∀ p, p ≠ diffPath out test → p ≠ shotPath out test urlA →
        p ≠ shotPath out test urlB →
        (runDiff lib eng sched fs test out).1.read p = fs.read p) ∧
      (sanitized urlA.Host ≠ sanitized urlB.Host → sanitized urlA.Host ≠ "diff" →
        sanitized urlB.Host ≠ "diff" →
        (runDiff lib eng sched fs test out).1.read (diffPath out test) =
          some (.png (eng.imgdiff imgA imgB)) ∧
        (runDiff lib eng sched fs test out).1.read (shotPath out test urlA) =
          some (.png imgA) ∧
        (runDiff lib eng sched fs test out).1.read (shotPath out test urlB) =
          some (.png imgB) ∧
        (diffPath out test ∉ fs.paths → shotPath out test urlA ∉ fs.paths →
          shotPath out test urlB ∉ fs.paths →
          (runDiff lib eng sched fs test out).1.length = fs.length + 3))) := by
  constructor
  · intro heq
    unfold runDiff
    simp [hA, hB, hcA, hcB, heq]
  · intro hne imgA imgB hdA hdB
    rw [runDiff_mismatch lib eng sched fs test out urlA urlB screenA screenB imgA imgB
      hA hB hcA hcB hcreate hencode hclose hne hdA hdB]
    unfold diffPath shotPath
    generalize outfile out test = o
    obtain ⟨_, b, c, d⟩ := runGroup_order eng fs sched (eng.imgdiff imgA imgB, o ++ ".diff")
      (imgA, o ++ "." ++ sanitized urlA.Host) (imgB, o ++ "." ++ sanitized urlB.Host)
      hcreate hencode hclose
    refine ⟨rfl, b, c, ?_⟩
    intro hab ha hb
    have kda : o ++ ".diff" ≠ o ++ "." ++ sanitized urlA.Host := by
      rw [diffFile_eq]
      intro h
      exact ha (file_inj _ _ _ h).symm
    have kdb : o ++ ".diff" ≠ o ++ "." ++ sanitized urlB.Host := by
      rw [diffFile_eq]
      intro h
      exact hb (file_inj _ _ _ h).symm
    have kab : o ++ "." ++ sanitized urlA.Host ≠ o ++ "." ++ sanitized urlB.Host := by
      intro h
      exact hab (file_inj _ _ _ h)
    exact d kda kdb kab

/-! ### Concrete scripts -/

set_option maxRecDepth 100000 in
/-- Evidence for C2: a block with `capture fullscreen` and `capture viewport`
compiles to two test cases that are both named `homepage`. -/
theorem readTests_emits_duplicate_names :
    readTests Lib.lenient (ScriptFile.ofLines
      [ "compare https://go.dev http://localhost:6060",
        "test homepage",
        "pathname /",
        "capture fullscreen",
        "capture viewport" ]) =
      .ok [ { viewportCase "homepage" "/" 0 0 with screenshotType := .fullScreenshot },
            viewportCase "homepage" "/" 0 0 ] ∧
    ¬ ([ { viewportCase "homepage" "/" 0 0 with screenshotType := .fullScreenshot },
         viewportCase "homepage" "/" 0 0 ].map testcase.name).Nodup := by
  decide

set_option maxRecDepth 100000 in
/-- Counterexample to C3 as stated: `test same` twice before two `capture`
lines compiles, to two test cases, with no duplicate-name error. -/
theorem readTests_accepts_repeated_test_line :
    readTests Lib.lenient (ScriptFile.ofLines
      [ "compare https://go.dev http://localhost:6060",
        "test same",
        "test same",
        "pathname /",
        "capture viewport",
        "capture viewport 540x1080" ]) =
      .ok [ viewportCase "same" "/" 0 0, viewportCase "same 540x1080" "/" 540 1080 ] := by
  decide

set_option maxRecDepth 100000 in
/-- Witness for C3 (amended): a second block `test home` after a test case
named `home` fails on its line, the sixth. -/
theorem test_directive_duplicate_check_witness :
    readTests Lib.lenient (ScriptFile.ofLines
        [ "compare https://go.dev http://localhost:6060", "test home", "pathname /",
          "capture viewport", "" ]) = .ok [viewportCase "home" "/" 0 0] ∧
      directiveOf Lib.lenient "test home" = some ("TEST", "home") ∧
      readTests Lib.lenient
        { openErr := none,
          lines := [ "compare https://go.dev http://localhost:6060", "test home", "pathname /",
            "capture viewport", "" ] ++ "test home" :: ["pathname /about", "capture viewport"],
          scanErr := none } =
        .error (.duplicateTestName "home" 6) :=
  ⟨by decide, by decide,
   (test_directive_duplicate_check Lib.lenient
      [ "compare https://go.dev http://localhost:6060", "test home", "pathname /",
        "capture viewport", "" ]
      ["pathname /about", "capture viewport"] "test home" "home"
      [viewportCase "home" "/" 0 0] none (by decide) (by decide)).1
     ⟨viewportCase "home" "/" 0 0, by simp, rfl⟩⟩

set_option maxRecDepth 100000 in
/-- Counterexample to C4 as stated: the test case emitted after the blank
line by `capture viewport 540x1080` has the dimensions `540x1080`, while the
most recent `windowsize` line before it says `1536x960`. -/
theorem capture_after_blank_line_own_size :
    readTests Lib.lenient (ScriptFile.ofLines
      [ "windowsize 1536x960",
        "compare https://go.dev http://localhost:6060",
        "",
        "pathname /about",
        "capture viewport 540x1080" ]) =
      .ok [viewportCase "/about 540x1080" "/about" 540 1080] ∧
    lastWindowsize Lib.lenient
      [ "windowsize 1536x960",
        "compare https://go.dev http://localhost:6060",
        "",
        "pathname /about" ] = (1536, 960) := by
  decide

set_option maxRecDepth 100000 in
/-- Witness for C4 (amended), on the script of the package documentation: the
fourth test case, emitted by `capture viewport` after the second blank line,
has the origins and the window size set before the first blank line, and the
name, pathname and actions of its own block. -/
theorem blank_line_resets_test_scope_only_witness :
    isDirective Lib.lenient "" "" = true ∧
      isDirective Lib.lenient "CAPTURE" "capture viewport" = true ∧
      readTests Lib.lenient (ScriptFile.ofLines docScript) = .ok docCases ∧
      ∃ t, docCases[3]? = some t ∧
        (t.originA, t.originB) = ("https://go.dev", "http://localhost:6060") ∧
        (t.viewportWidth, t.viewportHeight) = (1536, 960) ∧
        t.name = "about page" ∧ t.pathame = "/about" ∧ t.tasks = [] :=
  ⟨by decide, by decide, by decide,
   (blank_line_resets_test_scope_only Lib.lenient (ScriptFile.ofLines docScript) docCases
      [ "windowsize 1536x960", "compare https://go.dev http://localhost:6060", "",
        "test homepage", "pathname /", "capture viewport", "capture viewport 540x1080",
        "capture viewport 400x1000" ]
      [ "test about page", "pathname /about" ]
      [ "capture viewport 540x1080", "capture viewport 400x1000" ]
      "" "capture viewport" rfl (by decide) (by decide) (by decide)).imp
     fun t ht => by
       obtain ⟨h0, h1, h2, h3, h4, h5⟩ := ht
       refine ⟨?_, ?_, ?_, ?_, ?_, ?_⟩
       · rw [← h0]; decide
       · rw [h1]; decide
       · rw [h2]; decide
       · rw [h3]; decide
       · rw [h4]; decide
       · rw [h5]; decide⟩

set_option maxRecDepth 100000 in
/-- Witness for C5.  On the script of the package documentation: the second
test case, of `capture viewport 540x1080`, is `540x1080` and named
`homepage 540x1080`; the fourth, of a later `capture viewport`, has the size
`1536x960` of the `windowsize` line and the plain name `about page`.  On a
script that ends with its one `capture viewport 540x1080` line: the test
case is `540x1080` and named `/ 540x1080`. -/
theorem capture_size_overrides_test_case_only_witness :
    captureForm Lib.lenient "capture viewport 540x1080" = some ("VIEWPORT", "540x1080") ∧
      splitDimensions "540x1080" = .ok (540, 1080) ∧
      captureForm Lib.lenient "capture viewport" = some ("VIEWPORT", "") ∧
      readTests Lib.lenient (ScriptFile.ofLines docScript) = .ok docCases ∧
      (∃ t1, docCases[1]? = some t1 ∧
        t1.viewportWidth = 540 ∧ t1.viewportHeight = 1080 ∧
        t1.name = "homepage 540x1080") ∧
      (∃ t2, docCases[3]? = some t2 ∧
        (t2.viewportWidth, t2.viewportHeight) = (1536, 960) ∧
        t2.screenshotType = .viewportScreenshot ∧ t2.name = "about page") ∧
      readTests Lib.lenient (ScriptFile.ofLines
        [ "compare https://go.dev http://localhost:6060", "pathname /",
          "capture viewport 540x1080" ]) = .ok [viewportCase "/ 540x1080" "/" 540 1080] ∧
      (∃ t, [viewportCase "/ 540x1080" "/" 540 1080][0]? = some t ∧
        t.viewportWidth = 540 ∧ t.viewportHeight = 1080 ∧ t.name = "/ 540x1080") :=
  have h := capture_size_overrides_test_case_only Lib.lenient (ScriptFile.ofLines docScript)
    docCases
    [ "windowsize 1536x960", "compare https://go.dev http://localhost:6060", "",
      "test homepage", "pathname /", "capture viewport" ]
    [ "capture viewport 400x1000", "", "test about page", "pathname /about",
      "capture viewport", "capture viewport 540x1080", "capture viewport 400x1000" ]
    "capture viewport 540x1080" "VIEWPORT" "540x1080" 540 1080
    rfl (by decide) (Or.inr rfl) rfl (by decide)
  ⟨by decide, rfl, by decide, by decide,
   h.1.imp fun t1 ht => by
     obtain ⟨h0, h2, h3, h4⟩ := ht
     refine ⟨?_, h2, h3, ?_⟩
     · rw [← h0]; decide
     · rw [h4]; decide,
   (h.2 [ "capture viewport 400x1000", "", "test about page", "pathname /about" ]
      [ "capture viewport 540x1080", "capture viewport 400x1000" ]
      "capture viewport" "VIEWPORT" rfl (by decide) (by decide)).imp fun t2 ht => by
     obtain ⟨h1, h5, _, h7, h8⟩ := ht
     refine ⟨?_, ?_, ?_, ?_⟩
     · rw [← h1]; decide
     · rw [h5]; decide
     · rw [h7]; decide
     · rw [h8]; decide,
   by decide,
   (capture_size_overrides_test_case_only Lib.lenient (ScriptFile.ofLines
      [ "compare https://go.dev http://localhost:6060", "pathname /",
        "capture viewport 540x1080" ]) [viewportCase "/ 540x1080" "/" 540 1080]
      [ "compare https://go.dev http://localhost:6060", "pathname /" ] []
      "capture viewport 540x1080" "VIEWPORT" "540x1080" 540 1080
      rfl (by decide) (Or.inr rfl) rfl (by decide)).1.imp fun t ht => by
     obtain ⟨h0, h2, h3, h4⟩ := ht
     refine ⟨?_, h2, h3, ?_⟩
     · rw [← h0]; decide
     · rw [h4]; decide⟩

set_option maxRecDepth 100000 in
/-- Evidence for C6: in a block with no `test` line and two `pathname` lines,
the test case is named after the first pathname and visits the second. -/
theorem readTests_name_of_first_pathname :
    readTests Lib.lenient (ScriptFile.ofLines
      [ "compare https://go.dev http://localhost:6060",
        "pathname /about",
        "pathname /blog",
        "capture viewport" ]) =
      .ok [viewportCase "/about" "/blog" 0 0] := by
  decide

set_option maxRecDepth 100000 in
/-- Evidence for C7: a `compare` line with one origin, or with none, ends
`readTests` in a panic (an index out of range), whatever `url.Parse` does;
a `compare` line with three origins is accepted, the third being dropped. -/
theorem readTests_compare_arity :
    (∀ lib : Lib, readTests lib (ScriptFile.ofLines ["compare https://go.dev"]) = .panic) ∧
    (∀ lib : Lib, readTests lib (ScriptFile.ofLines ["compare"]) = .panic) ∧
    readTests Lib.lenient (ScriptFile.ofLines
      [ "compare https://go.dev http://localhost:6060 https://example.com",
        "pathname /",
        "capture" ]) = .ok [viewportCase "/" "/" 0 0] :=
  ⟨fun _ => rfl, fun _ => rfl, by decide⟩

set_option maxRecDepth 100000 in
/-- Evidence for C8: the error for a malformed `windowsize` line, and the one
for a malformed size on a `capture` line, carry no line number, whatever
`url.Parse` does. -/
theorem readTests_dimension_error_without_line :
    (∀ lib : Lib, readTests lib (ScriptFile.ofLines ["windowsize 540"]) =
      .error (.splitDimensions "540" (.fields "540"))) ∧
    readTests Lib.lenient (ScriptFile.ofLines
      [ "compare https://go.dev http://localhost:6060",
        "pathname /",
        "capture viewport 540xx" ]) =
      .error (.splitDimensions "540xx" (.fields "540xx")) ∧
    (CompileError.splitDimensions "540" (.fields "540")).lineNo? = none ∧
    (CompileError.splitDimensions "540xx" (.fields "540xx")).lineNo? = none :=
  ⟨fun _ => rfl, by decide, rfl, rfl⟩

/-- Evidence for C9: the character class of `sanitize` has no backslash, the
one of its pattern escaping the colon, so `sanitized` keeps a backslash. -/
theorem sanitized_keeps_backslash :
    sanitize = ".*<>?`'|/: ".data ∧
    sanitized "C:\\tmp\\a b.png" = "C-\\tmp\\a-b-png" ∧
    '\\' ∈ (sanitized "C:\\tmp\\a b.png").data := by
  decide

set_option maxRecDepth 100000 in
/-- Evidence for C10.  Two origins with one host, `http://go.dev` and
`https://go.dev`: the captures succeed, decode and differ, every write
succeeds, and whatever the order of the goroutines `runDiff` leaves two
files, not three, the one named by the host having been written by two
goroutines at once.  A test case with an empty name: the three files are
written beside the output directory `out`, not in it.  Both test cases are
ones `readTests` emits, the second for a `test` line with no name. -/
theorem runDiff_shared_file_and_empty_name :
    (∀ sched : Schedule,
      (runDiff Lib.lenient Engine.sample sched [] sameHost "out").1.paths.length = 2 ∧
      (runDiff Lib.lenient Engine.sample sched [] sameHost "out").1.read
        "out/homepage.go-dev.png" = some FileData.contended ∧
      (runDiff Lib.lenient Engine.sample sched [] sameHost "out").1.read
        "out/homepage.diff.png" = some (FileData.png [0, 1]) ∧
      (runDiff Lib.lenient Engine.sample sched [] sameHost "out").2 =
        some (.mismatch "http://go.dev/" "https://go.dev/")) ∧
    readTests Lib.lenient (ScriptFile.ofLines
      [ "windowsize 1536x960", "compare http://go.dev https://go.dev", "test homepage",
        "pathname /", "capture viewport" ]) = .ok [sameHost] ∧
    readTests Lib.lenient (ScriptFile.ofLines
      [ "compare https://go.dev http://localhost:6060", "pathname /", "test", "capture" ]) =
      .ok [viewportCase "" "/" 0 0] ∧
    runDiff Lib.lenient Engine.sample Schedule.dAB [] (viewportCase "" "/" 0 0) "out" =
      ([ ("out.localhost-6060.png", FileData.png [1]),
         ("out.go-dev.png", FileData.png [0]),
         ("out.diff.png", FileData.png [0, 1]) ],
       some (.mismatch "https://go.dev/" "http://localhost:6060/")) :=
  ⟨fun sched => by cases sched <;> decide, by decide, by decide, by decide⟩

set_option maxRecDepth 100000 in
/-- Witness for `runDiff_artifacts`: on the page `/` of `https://go.dev` and
`http://localhost:6060`, with captures that differ, `runDiff` returns the
mismatch error and leaves three files. -/
theorem runDiff_artifacts_witness :
    Lib.lenient.urlParse (homepage.originA ++ homepage.pathame) =
        .ok { Host := "go.dev", text := "https://go.dev/" } ∧
      Lib.lenient.urlParse (homepage.originB ++ homepage.pathame) =
        .ok { Host := "localhost:6060", text := "http://localhost:6060/" } ∧
      captureScreenshot Engine.sample 0 { Host := "go.dev", text := "https://go.dev/" }
        homepage = .ok [0] ∧
      captureScreenshot Engine.sample 1
        { Host := "localhost:6060", text := "http://localhost:6060/" } homepage = .ok [1] ∧
      (runDiff Lib.lenient Engine.sample Schedule.ABd [] homepage "out").2 =
        some (.mismatch "https://go.dev/" "http://localhost:6060/") ∧
      (runDiff Lib.lenient Engine.sample Schedule.ABd [] homepage "out").1.length =
        ([] : FS (List UInt8)).length + 3 :=
  have h := (runDiff_artifacts Lib.lenient Engine.sample Schedule.ABd [] homepage "out"
    { Host := "go.dev", text := "https://go.dev/" }
    { Host := "localhost:6060", text := "http://localhost:6060/" } [0] [1]
    rfl rfl rfl rfl (fun _ => rfl) (fun _ => rfl) (fun _ => rfl)).2 (by decide) [0] [1] rfl rfl
  ⟨rfl, rfl, rfl, rfl, h.1,
   (h.2.2.2 (by decide) (by decide) (by decide)).2.2.2
     (by simp [FS.paths]) (by simp [FS.paths]) (by simp [FS.paths])⟩

/-! ### Further properties -/

theorem sanitized_data (text : String) :
    (sanitized text).data = text.data.map fun c => if sanitize.contains c then '-' else c :=
  rfl

/-- The function `sanitized` maps the text code point by code point: a member
of the character class of `sanitize` goes to `-`, every other code point
stays in its place, and the result has no member of the class. -/
theorem sanitized_spec (text : String) :
    (sanitized text).data.length = text.data.length ∧
    (∀ c ∈ sanitize, c ∉ (sanitized text).data) ∧
    (∀ (i : Nat) (c : Char), text.data[i]? = some c →
      (sanitized text).data[i]? = some (if c ∈ sanitize then '-' else c)) := by
  refine ⟨?_, ?_, ?_⟩
  · simp [sanitized_data]
  · intro c hc hmem
    rw [sanitized_data, List.mem_map] at hmem
    obtain ⟨d, _, hd⟩ := hmem
    by_cases hds : sanitize.contains d = true
    · rw [if_pos hds] at hd
      subst hd
      revert hc
      decide
    · rw [if_neg hds] at hd
      subst hd
      exact hds (by simpa using hc)
  · intro i c hi
    rw [sanitized_data, List.getElem?_map, hi]
    simp

/-- Sanitizing twice is sanitizing once. -/
theorem sanitized_idempotent (text : String) : sanitized (sanitized text) = sanitized text := by
  apply String.ext
  rw [sanitized_data, sanitized_data, List.map_map]
  apply List.map_congr_left
  intro c _
  simp only [Function.comp]
  by_cases hc : sanitize.contains c = true
  · rw [if_pos hc]
    decide
  · rw [if_neg hc, if_neg hc]

theorem captureTest_error (lib : Lib) (st : ParseState) (args : String) (e : CompileError)
    (h : captureTest lib st args = .error e) : e.lineNo? = none := by
  rw [captureTest_eq] at h
  split_ifs at h
  all_goals
    cases hs : splitDimensions (splitOneField args).2 with
    | error d =>
      rw [hs] at h
      injection h with h
      subst h
      rfl
    | ok d =>
      rw [hs] at h
      simp at h

theorem exec_error_line (lib : Lib) (st : ParseState) (line field args : String)
    (e : CompileError) (n : Nat)
    (h : exec lib st line field args = .error e) (hn : e.lineNo? = some n) :
    n = st.lineNo := by
  by_cases h0 : field = ""
  · subst h0
    rw [exec_blank] at h
    simp at h
  by_cases h1 : field = "COMPARE"
  · subst h1
    rw [exec_compare] at h
    split at h
    · split at h
      · injection h with h; subst h; simp [CompileError.lineNo?] at hn
      · split at h
        · injection h with h; subst h; simp [CompileError.lineNo?] at hn
        · simp at h
    · simp at h
  by_cases h2 : field = "WINDOWSIZE"
  · subst h2
    rw [exec_windowsize] at h
    split at h
    · injection h with h; subst h; simp [CompileError.lineNo?] at hn
    · simp at h
  by_cases h3 : field = "TEST"
  · subst h3
    rw [exec_test] at h
    split at h
    · injection h with h; subst h
      simpa [CompileError.lineNo?] using hn.symm
    · simp at h
  by_cases h4 : field = "PATHNAME"
  · subst h4
    rw [exec_pathname] at h
    split at h
    · injection h with h; subst h; simp [CompileError.lineNo?] at hn
    · split at h
      · injection h with h; subst h; simp [CompileError.lineNo?] at hn
      · by_cases hd : (st.tests.any fun t =>
            decide (t.name = if st.testName = "" then args else st.testName)) = true
        · rw [if_pos hd] at h
          injection h with h; subst h
          simpa [CompileError.lineNo?] using hn.symm
        · rw [if_neg hd] at h
          simp at h
  by_cases h5 : field = "CLICK"
  · subst h5
    rw [exec_click] at h
    simp at h
  by_cases h6 : field = "WAIT"
  · subst h6
    rw [exec_wait] at h
    simp at h
  by_cases h7 : field = "CAPTURE"
  · subst h7
    rw [exec_capture] at h
    by_cases hA : st.originA = "" ∨ st.originB = ""
    · rw [if_pos hA] at h
      injection h with h; subst h
      simpa [CompileError.lineNo?] using hn.symm
    rw [if_neg hA] at h
    by_cases hP : st.pathname = ""
    · rw [if_pos hP] at h
      injection h with h; subst h
      simpa [CompileError.lineNo?] using hn.symm
    rw [if_neg hP] at h
    cases ht : captureTest lib st args with
    | error e1 =>
      rw [ht] at h
      injection h with h; subst h
      rw [captureTest_error lib st args e1 ht] at hn
      simp at hn
    | ok t => rw [ht] at h; simp at h
  · rw [exec_other lib st line field args h0 h1 h2 h3 h4 h5 h6 h7] at h
    injection h with h; subst h
    simpa [CompileError.lineNo?] using hn.symm

theorem step_error_line (lib : Lib) (st : ParseState) (text : String) (e : CompileError)
    (n : Nat) (h : step lib st text = .error e) (hn : e.lineNo? = some n) :
    n = st.lineNo + 1 := by
  rw [step_eq] at h
  cases hd : directiveOf lib text with
  | none => rw [hd] at h; simp at h
  | some d =>
    obtain ⟨field, args⟩ := d
    rw [hd] at h
    exact exec_error_line lib _ _ field args e n h hn

theorem run_error (lib : Lib) (lines : List String) :
    ∀ (st : ParseState) (e : CompileError), run lib st lines = .error e →
    ∃ pre l post s, lines = pre ++ l :: post ∧ run lib st pre = .ok s ∧
      step lib s l = .error e := by
  induction lines with
  | nil => intro st e h; simp [run] at h
  | cons text rest ih =>
    intro st e h
    simp only [run] at h
    cases hs : step lib st text with
    | error e1 =>
      rw [hs] at h
      injection h with h; subst h
      exact ⟨[], text, rest, st, rfl, rfl, hs⟩
    | panic => rw [hs] at h; simp at h
    | ok s1 =>
      rw [hs] at h
      obtain ⟨pre, l, post, s, h1, h2, h3⟩ := ih s1 e h
      refine ⟨text :: pre, l, post, s, by rw [h1]; rfl, ?_, h3⟩
      simp only [run, hs]
      exact h2

/-- An error of `readTests` whose message has a line number (a duplicate test
name or pathname, a `capture` with no origins or no pathname, an unrecognized
directive) carries the 1-based number of the line `readTests` failed on, the
lines before it having been accepted. -/
theorem readTests_error_line (lib : Lib) (file : ScriptFile) (e : CompileError) (n : Nat)
    (h : readTests lib file = .error e) (hn : e.lineNo? = some n) :
    ∃ pre l post s, file.lines = pre ++ l :: post ∧ n = pre.length + 1 ∧
      run lib ParseState.init pre = .ok s ∧ step lib s l = .error e := by
  unfold readTests at h
  cases ho : file.openErr with
  | some err =>
    rw [ho] at h
    injection h with h; subst h
    simp [CompileError.lineNo?] at hn
  | none =>
    rw [ho] at h
    simp only at h
    cases hr : run lib ParseState.init file.lines with
    | panic => rw [hr] at h; simp at h
    | ok st =>
      rw [hr] at h
      simp only at h
      cases hs : file.scanErr with
      | some err =>
        rw [hs] at h
        injection h with h; subst h
        simp [CompileError.lineNo?] at hn
      | none => rw [hs] at h; simp at h
    | error e1 =>
      rw [hr] at h
      injection h with h; subst h
      obtain ⟨pre, l, post, s, h1, h2, h3⟩ := run_error lib _ _ _ hr
      refine ⟨pre, l, post, s, h1, ?_, h2, h3⟩
      rw [step_error_line lib s l e1 n h3 hn, (run_init lib pre s h2).1]

set_option maxRecDepth 100000 in
/-- Witness for `readTests_error_line`: `capture` after a blank line fails on
its line, the fifth, for lack of a pathname. -/
theorem readTests_error_line_witness :
    readTests Lib.lenient (ScriptFile.ofLines
        [ "compare https://go.dev http://localhost:6060", "pathname /", "capture", "",
          "capture" ]) = .error (.missingPathname 5) ∧
      ∃ pre l post s,
        [ "compare https://go.dev http://localhost:6060", "pathname /", "capture", "",
          "capture" ] = pre ++ l :: post ∧ 5 = pre.length + 1 ∧
        run Lib.lenient ParseState.init pre = .ok s ∧
        step Lib.lenient s l = .error (.missingPathname 5) :=
  ⟨by decide,
   readTests_error_line Lib.lenient (ScriptFile.ofLines
      [ "compare https://go.dev http://localhost:6060", "pathname /", "capture", "",
        "capture" ]) (.missingPathname 5) 5 (by decide) rfl⟩

theorem isDirective_blank (lib : Lib) (text : String)
    (h : isDirective lib "" text = true) : ∃ args, directiveOf lib text = some ("", args) := by
  unfold isDirective at h
  cases hd : directiveOf lib text with
  | none => rw [hd] at h; simp at h
  | some d =>
    obtain ⟨field, args⟩ := d
    rw [hd] at h
    simp at h
    exact ⟨args, by rw [h]⟩

/-- A `capture` line right after a blank line is a compile error on that
line: the blank line has reset the pathname, so the `capture` fails for lack
of a pathname, or of origins when no `compare` line came before. -/
theorem capture_after_blank_fails (lib : Lib) (pre post : List String) (blank l : String)
    (ts : List testcase) (scanErr : Option String)
    (hpre : readTests lib (ScriptFile.ofLines pre) = .ok ts)
    (hb : isDirective lib "" blank = true)
    (hc : isDirective lib "CAPTURE" l = true) :
    readTests lib { openErr := none, lines := pre ++ blank :: l :: post, scanErr := scanErr } =
        .error (.missingCompare (pre.length + 2)) ∨
    readTests lib { openErr := none, lines := pre ++ blank :: l :: post, scanErr := scanErr } =
        .error (.missingPathname (pre.length + 2)) := by
  obtain ⟨s, hr, _⟩ := readTests_ok lib _ ts hpre
  change run lib ParseState.init pre = .ok s at hr
  have hln := (run_init lib pre s hr).1
  obtain ⟨a0, hd0⟩ := isDirective_blank lib blank hb
  obtain ⟨a1, hd1⟩ := (isDirective_capture lib l).1 hc
  have hs0 : step lib s blank =
      .ok { s with lineNo := s.lineNo + 1, testName := "", pathname := "", tasks := [] } := by
    rw [step_eq, hd0]
    simp only
    rw [exec_blank]
  unfold readTests
  simp only
  rw [run_append, hr]
  simp only [run]
  rw [hs0]
  simp only
  rw [step_eq, hd1]
  simp only
  rw [exec_capture]
  by_cases hA : s.originA = "" ∨ s.originB = ""
  · left
    rw [if_pos hA, hln]
  · right
    rw [if_neg hA, if_pos rfl, hln]

set_option maxRecDepth 100000 in
/-- Witness for `capture_after_blank_fails`. -/
theorem capture_after_blank_fails_witness :
    readTests Lib.lenient (ScriptFile.ofLines
        [ "compare https://go.dev http://localhost:6060", "pathname /", "capture" ]) =
        .ok [viewportCase "/" "/" 0 0] ∧
      (readTests Lib.lenient
          { openErr := none,
            lines := [ "compare https://go.dev http://localhost:6060", "pathname /",
              "capture" ] ++ "" :: "capture" :: [],
            scanErr := none } =
          .error (.missingCompare (3 + 2)) ∨
       readTests Lib.lenient
          { openErr := none,
            lines := [ "compare https://go.dev http://localhost:6060", "pathname /",
              "capture" ] ++ "" :: "capture" :: [],
            scanErr := none } =
          .error (.missingPathname (3 + 2))) :=
  ⟨by decide,
   capture_after_blank_fails Lib.lenient
     [ "compare https://go.dev http://localhost:6060", "pathname /", "capture" ] [] "" "capture"
     [viewportCase "/" "/" 0 0] none (by decide) (by decide) (by decide)⟩

/-- Two `capture` lines in a row, in a script that compiles, emit two test
cases with the same origins, pathname and action sequence. -/
theorem consecutive_captures_share (lib : Lib) (file : ScriptFile) (ts : List testcase)
    (pre post : List String) (l1 l2 : String)
    (hl : file.lines = pre ++ l1 :: l2 :: post)
    (h1 : isDirective lib "CAPTURE" l1 = true)
    (h2 : isDirective lib "CAPTURE" l2 = true)
    (hok : readTests lib file = .ok ts) :
    ∃ t1 t2, ts[captureCount lib pre]? = some t1 ∧ ts[captureCount lib pre + 1]? = some t2 ∧
      t1.originA = t2.originA ∧ t1.originB = t2.originB ∧
      t1.pathame = t2.pathame ∧ t1.tasks = t2.tasks := by
  obtain ⟨a1, hd1⟩ := (isDirective_capture lib l1).1 h1
  obtain ⟨a2, hd2⟩ := (isDirective_capture lib l2).1 h2
  have hl2 : file.lines = (pre ++ [l1]) ++ l2 :: post := by
    rw [hl]; simp
  obtain ⟨s1, t1, hr1, ht1, hget1, _, _, _⟩ := emitted_at lib file ts pre _ l1 a1 hl hd1 hok
  obtain ⟨s2, t2, hr2, ht2, hget2, _, _, _⟩ := emitted_at lib file ts _ post l2 a2 hl2 hd2 hok
  obtain ⟨f1, f2, f3, f4, _⟩ := captureTest_fields lib s1 l1 a1 t1 hd1 ht1
  obtain ⟨g1, g2, g3, g4, _⟩ := captureTest_fields lib s2 l2 a2 t2 hd2 ht2
  rw [run_append, hr1] at hr2
  simp only [run] at hr2
  cases hs : step lib s1 l1 with
  | error e => rw [hs] at hr2; simp at hr2
  | panic => rw [hs] at hr2; simp at hr2
  | ok s =>
    rw [hs] at hr2
    injection hr2 with hr2
    subst hr2
    obtain ⟨_, b2, _, b4, _, _⟩ := step_ok lib s1 s l1 hs
    have hc : compareOf lib l1 = none := by simp [compareOf, hd1, compareArgs]
    rw [hc] at b2
    simp only [Option.getD_none, Prod.mk.injEq] at b2
    have hsc : s.scope = s1.scope := by
      rw [b4]
      simp [TestScope.line, hd1, TestScope.next]
    have hp : s.pathname = s1.pathname := congrArg TestScope.pathname hsc
    have htk : s.tasks = s1.tasks := congrArg TestScope.tasks hsc
    rw [captureCount_append] at hget2
    have hone : captureCount lib [l1] = 1 := by
      simp [captureCount, h1]
    rw [hone] at hget2
    refine ⟨t1, t2, hget1, hget2, ?_, ?_, ?_, ?_⟩
    · rw [f3, g3, b2.1]
    · rw [f4, g4, b2.2]
    · rw [f1, g1, hp]
    · rw [f2, g2, htk]

set_option maxRecDepth 100000 in
/-- Witness for `consecutive_captures_share`, on the script of the package
documentation. -/
theorem consecutive_captures_share_witness :
    isDirective Lib.lenient "CAPTURE" "capture viewport" = true ∧
      isDirective Lib.lenient "CAPTURE" "capture viewport 540x1080" = true ∧
      readTests Lib.lenient (ScriptFile.ofLines docScript) = .ok docCases ∧
      ∃ t1 t2, docCases[0]? = some t1 ∧ docCases[0 + 1]? = some t2 ∧
        t1.originA = t2.originA ∧ t1.originB = t2.originB ∧
        t1.pathame = t2.pathame ∧ t1.tasks = t2.tasks :=
  ⟨by decide, by decide, by decide,
   consecutive_captures_share Lib.lenient (ScriptFile.ofLines docScript) docCases
     [ "windowsize 1536x960", "compare https://go.dev http://localhost:6060", "",
       "test homepage", "pathname /" ]
     [ "capture viewport 400x1000", "", "test about page", "pathname /about",
       "capture viewport", "capture viewport 540x1080", "capture viewport 400x1000" ]
     "capture viewport" "capture viewport 540x1080" rfl (by decide) (by decide) (by decide)⟩

theorem TestScope.line_of_not_test (lib : Lib) (b : TestScope) (text : String)
    (h1 : isDirective lib "TEST" text = false) (h2 : isDirective lib "" text = false) :
    (TestScope.line lib b text).testName =
      (if b.testName = "" then (pathnameOf lib text).getD "" else b.testName) ∧
    (TestScope.line lib b text).pathname = (pathnameOf lib text).getD b.pathname := by
  unfold TestScope.line pathnameOf
  unfold isDirective at h1 h2
  cases hd : directiveOf lib text with
  | none =>
    simp only [Option.bind_none, Option.getD_none]
    split_ifs with hb
    · exact ⟨hb, rfl⟩
    · exact ⟨rfl, rfl⟩
  | some d =>
    obtain ⟨field, args⟩ := d
    rw [hd] at h1 h2
    simp at h1 h2
    have h1' : ¬ field = "TEST" := h1
    have h2' : ¬ field = "" := h2
    by_cases hp : field = "PATHNAME"
    · subst hp
      simp [TestScope.next]
    · simp [TestScope.next, h1', h2', hp]
      split_ifs <;> simp_all

theorem TestScope.foldl_of_no_test (lib : Lib) (block : List String) :
    ∀ b : TestScope,
    (∀ l ∈ block, isDirective lib "TEST" l = false ∧ isDirective lib "" l = false) →
    (block.foldl (TestScope.line lib) b).testName =
      (if b.testName = "" then firstPathname lib block else b.testName) ∧
    (block.foldl (TestScope.line lib) b).pathname =
      ((block.filterMap (pathnameOf lib)).getLast?).getD b.pathname := by
  induction block with
  | nil =>
    intro b _
    simp only [List.foldl_nil, firstPathname, List.filterMap_nil, List.find?_nil,
      Option.getD_none, List.getLast?_nil, and_true]
    split_ifs with hb
    · exact hb
    · rfl
  | cons text rest ih =>
    intro b hall
    have h0 := hall text (List.mem_cons_self _ _)
    have hrest : ∀ l ∈ rest, isDirective lib "TEST" l = false ∧ isDirective lib "" l = false :=
      fun l hl => hall l (List.mem_cons_of_mem _ hl)
    obtain ⟨a1, a2⟩ := TestScope.line_of_not_test lib b text h0.1 h0.2
    obtain ⟨b1, b2⟩ := ih (TestScope.line lib b text) hrest
    rw [List.foldl_cons, b1, b2, a1, a2]
    constructor
    · unfold firstPathname
      cases hp : pathnameOf lib text with
      | none =>
        simp only [Option.getD_none, List.filterMap_cons, hp]
        split_ifs <;> simp_all
      | some q =>
        simp only [Option.getD_some, List.filterMap_cons, hp, List.find?_cons]
        by_cases hq : q = ""
        · subst hq
          split_ifs <;> simp_all
        · split_ifs <;> simp_all
    · cases hp : pathnameOf lib text with
      | none => simp [List.filterMap_cons, hp]
      | some q => simp [List.filterMap_cons, hp, getLast?_getD_cons]

/-- In a test block with no `test` line, the name of an emitted test case is
the first non-empty pathname of the block, followed by the suffix of its
`capture` line, while the pathname it carries is the one of the last
`pathname` line of the block. -/
theorem name_of_block_without_test (lib : Lib) (file : ScriptFile) (ts : List testcase)
    (pre block post : List String) (blank l : String)
    (hl : file.lines = pre ++ blank :: (block ++ l :: post))
    (hb : isDirective lib "" blank = true)
    (hblock : ∀ x ∈ block, isDirective lib "TEST" x = false ∧ isDirective lib "" x = false)
    (hc : isDirective lib "CAPTURE" l = true)
    (hok : readTests lib file = .ok ts) :
    ∃ t, ts[captureCount lib (pre ++ blank :: block)]? = some t ∧
      t.name = firstPathname lib block ++ captureSuffix lib l ∧
      t.pathame = lastPathname lib block := by
  obtain ⟨args, hd⟩ := (isDirective_capture lib l).1 hc
  have hl2 : file.lines = (pre ++ blank :: block) ++ l :: post := by
    rw [hl]; simp
  obtain ⟨s, t, hr, ht, hget, _, _, _⟩ := emitted_at lib file ts _ post l args hl2 hd hok
  obtain ⟨_, _, _, r4, _⟩ := run_init lib _ s hr
  obtain ⟨f1, _, _, _, f5, _, _⟩ := captureTest_fields lib s l args t hd ht
  rw [TestScope.after_append_blank lib pre block blank hb] at r4
  obtain ⟨k1, k2⟩ := TestScope.foldl_of_no_test lib block TestScope.empty hblock
  have hn : s.testName = firstPathname lib block := by
    have h := congrArg TestScope.testName r4
    unfold TestScope.after at h
    rw [k1] at h
    exact h
  have hp : s.pathname = lastPathname lib block := by
    have h := congrArg TestScope.pathname r4
    unfold TestScope.after at h
    rw [k2] at h
    exact h
  exact ⟨t, hget, by rw [f5, hn], by rw [f1, hp]⟩

set_option maxRecDepth 100000 in
/-- Witness for `name_of_block_without_test`: a block with the lines
`pathname /about` and `pathname /blog`. -/
theorem name_of_block_without_test_witness :
    readTests Lib.lenient (ScriptFile.ofLines
        [ "compare https://go.dev http://localhost:6060", "", "pathname /about",
          "pathname /blog", "capture viewport" ]) = .ok [viewportCase "/about" "/blog" 0 0] ∧
      ∃ t, [viewportCase "/about" "/blog" 0 0][0]? = some t ∧
        t.name = "/about" ∧ t.pathame = "/blog" :=
  ⟨by decide,
   (name_of_block_without_test Lib.lenient (ScriptFile.ofLines
      [ "compare https://go.dev http://localhost:6060", "", "pathname /about",
        "pathname /blog", "capture viewport" ]) [viewportCase "/about" "/blog" 0 0]
      [ "compare https://go.dev http://localhost:6060" ] [ "pathname /about", "pathname /blog" ]
      [] "" "capture viewport" rfl (by decide) (by decide) (by decide) (by decide)).imp
     fun t ht => by
       obtain ⟨h0, h1, h2⟩ := ht
       refine ⟨?_, ?_, ?_⟩
       · rw [← h0]; decide
       · rw [h1]; decide
       · rw [h2]; decide⟩

end Screentest
